import Mathlib

/-!
VDrift road strip (`src/roadstrip.cpp`).

A shallow embedding of `ROADSTRIP::ReadFrom`, `ROADSTRIP::GenerateSpacePartitioning`
and `ROADSTRIP::Collide`, followed by theorems about them.

Conventions of the embedding.

* `std::vector<ROADPATCH> patches` is a `List`.  `ReadFrom` calls
  `patches.reserve(num)` before it pushes at most `num` elements, so the vector is
  never reallocated while pointers into it are alive: the address of an element is
  its slot (its position in the vector), and a `BEZIER *` is modelled as a slot
  number.
* A dereference of an iterator or an index outside `[0, size)` is undefined
  behaviour in C++.  The model stops there with `Fault.out_of_range` and keeps the
  state reached just before the access.
* The classes `BEZIER`, `ROADPATCH`, `MATHVECTOR`, `AABB_SPACE_PARTITIONING_NODE`
  and the stream are not part of `roadstrip.cpp`.  What `roadstrip.cpp` calls on
  them is collected in the structure `Collaborators`, over abstract types:
  `G` patch geometry, `V` vectors, `L` the segment length, `D` the values of
  `Magnitude` and `MagnitudeSquared` (`float` in the source), `B` bounding boxes,
  `S` the state of the input stream.
-/

namespace Vdrift

/-- Ways a call stops without returning. -/
inductive Fault where
  /-- `std::length_error`, thrown by `vector::reserve` for a negative `int`
  converted to `size_type`. -/
  | length_error
  /-- An iterator or index outside `[0, size)` is dereferenced. -/
  | out_of_range
  deriving DecidableEq, Repr

/-- Modelled from the spec: class `BEZIER` (declared in `bezier.h`, absent here) is a
quadrilateral patch with its geometry and a non-owning reference to the attached
neighbour.  `geom` is what `ReadFromYZX` read (and `Reverse` turned around);
`next_patch` is the pointer set by `Attach`, `none` for `NULL`. -/
structure BEZIER (G : Type) where
  geom : G
  next_patch : Option Nat
  deriving DecidableEq, Repr

/-- Modelled from the spec: `BEZIER::Attach(other)` stores the reference to the next
patch; `other` is the address (slot) of the patch attached to. -/
def BEZIER.Attach {G : Type} (self : BEZIER G) (other : Nat) : BEZIER G :=
  { self with next_patch := some other }

/-- Class `ROADPATCH` of `roadpatch.h`, as far as `roadstrip.cpp` uses it: a
wrapper around its `BEZIER`, reached through `GetPatch()`. -/
structure ROADPATCH (G : Type) where
  patch : BEZIER G
  deriving DecidableEq, Repr

/-- The default constructed patch `ROADPATCH()` after `ReadFromYZX` has filled in its
geometry: not attached to anything. -/
def ROADPATCH.fresh {G : Type} (g : G) : ROADPATCH G :=
  { patch := { geom := g, next_patch := none } }

/-- The operations of the absent classes that `roadstrip.cpp` calls. -/
structure Collaborators (G V L D B S : Type) where
  /-- `openfile >> num` with `int num = 0`: the count read (0 when the extraction
  fails) and the stream after it. -/
  readInt : S → Int × S
  /-- `BEZIER::ReadFromYZX(openfile)`: the geometry of the next record and the
  stream after it. -/
  ReadFromYZX : S → G × S
  /-- `BEZIER::CheckForProblems()`: `true` when the patch is malformed. -/
  CheckForProblems : G → Bool
  /-- `BEZIER::Reverse()` on the geometry. -/
  Reverse : G → G
  GetFL : G → V
  GetFR : G → V
  GetBL : G → V
  GetBR : G → V
  /-- `MATHVECTOR::operator-`. -/
  sub : V → V → V
  /-- `MATHVECTOR::Magnitude()`. -/
  Magnitude : V → D
  /-- `MATHVECTOR::MagnitudeSquared()`. -/
  MagnitudeSquared : V → D
  /-- The literal `0.1` of the closure test. -/
  tolerance : D
  /-- `BEZIER::GetAABB()`. -/
  GetAABB : G → B
  /-- `ROADPATCH::Collide(origin, direction, seglen, outtri, normal)`:
  `some (outtri, normal)` when it returns `true`, `none` when it returns `false`. -/
  Collide : G → V → V → L → Option (V × V)
  /-- `aabb_part.Query(AABB<float>::RAY(origin, direction, seglen), candidates)`:
  the candidate ids, in the order they are appended to `candidates`. -/
  Query : List (Nat × B) → V → V → L → List Nat

/-- The data members of `ROADSTRIP`.  Modelled from the spec: the spatial index
`aabb_part` (class `AABB_SPACE_PARTITIONING_NODE`, absent here) is the list of
`(id, box)` entries it holds: `Clear` empties it, `Add` appends an entry and
`Optimize` rearranges the structure without changing its entries. -/
structure ROADSTRIP (G B : Type) where
  patches : List (ROADPATCH G)
  closed : Bool
  aabb_part : List (Nat × B)
  deriving DecidableEq, Repr

/-- The loop variables and stream of the read loop of `ReadFrom` (lines 43-59). -/
structure ReadState (G S : Type) where
  patches : List (ROADPATCH G)
  badcount : Nat
  openfile : S
  deriving DecidableEq, Repr

/-- What a call of `ReadFrom` leaves behind: its return value or the fault that
stopped it, the strip, the stream and the lines written to `error_output`. -/
structure ReadResult (G B S : Type) where
  ret : Except Fault Bool
  strip : ROADSTRIP G B
  openfile : S
  error_output : List String

/-- The reference parameters `patch_id`, `outtri`, `colpatch` and `normal` of
`Collide`: their values on entry and on return.  `colpatch` is a `const BEZIER *`,
the slot of a patch of the strip or `none`. -/
structure CollideRefs (V : Type) where
  patch_id : Int
  outtri : V
  colpatch : Option Nat
  normal : V
  deriving DecidableEq, Repr

section Build

variable {G V L D B S : Type} [LT D] [∀ a b : D, Decidable (a < b)]

/-- The expression `patches[a].GetPatch().Attach(patches[b].GetPatch())` as a
vector update: the patch in slot `a` gets `next_patch = &patches[b]`. -/
def attachAt : List (ROADPATCH G) → Nat → Nat → List (ROADPATCH G)
  | [], _, _ => []
  | p :: ps, 0, b => { patch := p.patch.Attach b } :: ps
  | p :: ps, a + 1, b => p :: attachAt ps a b

/-- One iteration of the read loop (lines 46-58). -/
def readStep (ops : Collaborators G V L D B S) (st : ReadState G S) : ReadState G S :=
  -- BEZIER * prevbezier = 0; if (!patches.empty()) prevbezier = &patches.back().GetPatch();
  let prevbezier : Option Nat :=
    if st.patches.isEmpty then none else some (st.patches.length - 1)
  -- patches.push_back(ROADPATCH()); patches.back().GetPatch().ReadFromYZX(openfile);
  let rd := ops.ReadFromYZX st.openfile
  let pushed := st.patches ++ [ROADPATCH.fresh rd.1]
  -- if (prevbezier) prevbezier->Attach(patches.back().GetPatch());
  let attached :=
    match prevbezier with
    | some a => attachAt pushed a (pushed.length - 1)
    | none => pushed
  -- if (patches.back().GetPatch().CheckForProblems()) { badcount++; patches.pop_back(); }
  if ops.CheckForProblems rd.1 then
    { patches := attached.dropLast, badcount := st.badcount + 1, openfile := rd.2 }
  else
    { patches := attached, badcount := st.badcount, openfile := rd.2 }

/-- The read loop `for (int i = 0; i < num; ++i)` with `n` iterations to go. -/
def readLoop (ops : Collaborators G V L D B S) : Nat → ReadState G S → ReadState G S
  | 0, st => st
  | n + 1, st => readLoop ops n (readStep ops st)

/-- Lines 61-62: the line written to `error_output` when patches were rejected. -/
def report (badcount : Nat) (error_output : List String) : List String :=
  if badcount > 0 then
    error_output ++
      ["Rejected " ++ toString badcount ++ " bezier patch(es) from roadstrip due to errors"]
  else error_output

/-- Lines 67-71: `std::reverse` of the vector, then `Reverse()` on every patch.
`std::reverse` moves the elements by value, so each keeps the `next_patch` it had;
`Reverse()` turns the geometry around and leaves `next_patch` alone. -/
def reversePatches (ops : Collaborators G V L D B S) (ps : List (ROADPATCH G)) :
    List (ROADPATCH G) :=
  ps.reverse.map fun p => { patch := { p.patch with geom := ops.Reverse p.patch.geom } }

/-- Lines 75-77: the closure test.  `back()` and `front()` are evaluated only when
`patches.size() > 2`, because `&&` evaluates its left operand first. -/
def closureTest (ops : Collaborators G V L D B S) (ps : List (ROADPATCH G)) : Bool :=
  decide (ps.length > 2) &&
    match ps.getLast?, ps.head? with
    | some back, some front =>
      decide (ops.Magnitude (ops.sub (ops.GetFL back.patch.geom) (ops.GetBL front.patch.geom))
          < ops.tolerance) &&
        decide (ops.Magnitude (ops.sub (ops.GetFR back.patch.geom) (ops.GetBR front.patch.geom))
          < ops.tolerance)
    | _, _ => false

/-- Lines 80-84: the loop `for (i = patches.begin(); i != patches.end() - 1; ++i)`.
The iterator `i` is its slot number together with the elements from `*i` to the end
of the vector.  When one element is left, `i == patches.end() - 1` and the loop
ends.  When two or more are left, `*i` is attached to `*(i + 1)`.  When none is
left, `i == patches.end()`, which differs from `patches.end() - 1`, and the body
dereferences `i`: this is reached exactly when the vector is empty, where
`patches.end() - 1` lies before `patches.begin()`. -/
def connectFrom : Nat → List (ROADPATCH G) → Except Fault (List (ROADPATCH G))
  | _, [] => .error .out_of_range
  | _, [p] => .ok [p]
  | i, p :: q :: rest =>
    match connectFrom (i + 1) (q :: rest) with
    | .ok tail => .ok ({ patch := p.patch.Attach (i + 1) } :: tail)
    | .error f => .error f

/-- The entries `GenerateSpacePartitioning` adds for the slots from `i` on. -/
def entriesFrom (ops : Collaborators G V L D B S) : Nat → List (ROADPATCH G) → List (Nat × B)
  | _, [] => []
  | i, p :: ps => (i, ops.GetAABB p.patch.geom) :: entriesFrom ops (i + 1) ps

/-- `ROADSTRIP::GenerateSpacePartitioning` (lines 95-103). -/
def ROADSTRIP.GenerateSpacePartitioning (ops : Collaborators G V L D B S)
    (self : ROADSTRIP G B) : ROADSTRIP G B :=
  { self with aabb_part := entriesFrom ops 0 self.patches }

/-- `ROADSTRIP::ReadFrom` (lines 29-93).  `assert(openfile)` is a precondition on
the caller and has no effect on the state. -/
def ROADSTRIP.ReadFrom (ops : Collaborators G V L D B S) (self : ROADSTRIP G B)
    (openfile : S) (reverse : Bool) (error_output : List String) : ReadResult G B S :=
  -- int num = 0; openfile >> num;
  let rd := ops.readInt openfile
  let num := rd.1
  -- patches.clear(); patches.reserve(num);
  if num < 0 then
    { ret := .error .length_error, strip := { self with patches := [] },
      openfile := rd.2, error_output := error_output }
  else
    let st := readLoop ops num.toNat { patches := [], badcount := 0, openfile := rd.2 }
    let out := report st.badcount error_output
    let ps := if reverse then reversePatches ops st.patches else st.patches
    let closed := closureTest ops ps
    match connectFrom 0 ps with
    | .error f =>
      { ret := .error f, strip := { self with patches := ps, closed := closed },
        openfile := st.openfile, error_output := out }
    | .ok connected =>
      -- if (closed) patches.back().GetPatch().Attach(patches.front().GetPatch());
      let ringed := if closed then attachAt connected (connected.length - 1) 0 else connected
      { ret := .ok true,
        strip := ROADSTRIP.GenerateSpacePartitioning ops
          { self with patches := ringed, closed := closed },
        openfile := st.openfile, error_output := out }

/-- The body of the candidate loop of `Collide` (lines 131-142) for the candidate
`c`; `acc` holds the local `col` and the reference parameters. -/
def collideCandidate (ops : Collaborators G V L D B S) (self : ROADSTRIP G B)
    (origin direction : V) (seglen : L) (acc : Bool × CollideRefs V) (c : Nat) :
    Except Fault (Bool × CollideRefs V) :=
  match self.patches[c]? with
  | none => .error .out_of_range
  | some p =>
    -- if (patches[*i].Collide(origin, direction, seglen, coltri, colnorm))
    match ops.Collide p.patch.geom origin direction seglen with
    | none => .ok acc
    | some (coltri, colnorm) =>
      -- if (!col || (coltri-origin).MagnitudeSquared() < (outtri-origin).MagnitudeSquared())
      if !acc.1 || decide (ops.MagnitudeSquared (ops.sub coltri origin)
          < ops.MagnitudeSquared (ops.sub acc.2.outtri origin)) then
        .ok (true, { patch_id := (c : Int), outtri := coltri, colpatch := some c,
                     normal := colnorm })
      else .ok (true, acc.2)

/-- The candidate loop of `Collide` (lines 129-143) over the candidates still to
visit. -/
def collideCandidates (ops : Collaborators G V L D B S) (self : ROADSTRIP G B)
    (origin direction : V) (seglen : L) :
    List Nat → Bool × CollideRefs V → Except Fault (Bool × CollideRefs V)
  | [], acc => .ok acc
  | c :: cs, acc =>
    match collideCandidate ops self origin direction seglen acc c with
    | .ok acc2 => collideCandidates ops self origin direction seglen cs acc2
    | .error f => .error f

/-- Lines 126-145 of `Collide`: the search through the candidates of the spatial
index, starting from `col = false`. -/
def fallbackSearch (ops : Collaborators G V L D B S) (self : ROADSTRIP G B)
    (origin direction : V) (seglen : L) (refs : CollideRefs V) :
    Except Fault (Bool × CollideRefs V) :=
  collideCandidates ops self origin direction seglen
    (ops.Query self.aabb_part origin direction seglen) (false, refs)

/-- `ROADSTRIP::Collide` (lines 105-146): the value returned together with the
reference parameters on return.  `(int)patches.size()` is the length: a strip
holds fewer than `2^31` patches. -/
def ROADSTRIP.Collide (ops : Collaborators G V L D B S) (self : ROADSTRIP G B)
    (origin direction : V) (seglen : L) (refs : CollideRefs V) :
    Except Fault (Bool × CollideRefs V) :=
  -- if (patch_id >= 0 && patch_id < (int)patches.size())
  if 0 ≤ refs.patch_id ∧ refs.patch_id < (self.patches.length : Int) then
    match self.patches[refs.patch_id.toNat]? with
    | none => .error .out_of_range
    | some p =>
      match ops.Collide p.patch.geom origin direction seglen with
      | some (coltri, colnorm) =>
        .ok (true, { refs with outtri := coltri, normal := colnorm,
                               colpatch := some refs.patch_id.toNat })
      | none => fallbackSearch ops self origin direction seglen refs
  else fallbackSearch ops self origin direction seglen refs

/-- The hit of the ray on the patch in slot `c`: what `patches[c].Collide(...)`
reports, `none` when it reports no collision (or when the strip has no slot
`c`). -/
def hitOf (ops : Collaborators G V L D B S) (self : ROADSTRIP G B)
    (origin direction : V) (seglen : L) (c : Nat) : Option (V × V) :=
  match self.patches[c]? with
  | none => none
  | some p => ops.Collide p.patch.geom origin direction seglen

/-- The hit of the ray on the hinted patch; `none` when the hint is not a slot of the
strip or the hinted patch reports no collision. -/
def hintHit (ops : Collaborators G V L D B S) (self : ROADSTRIP G B)
    (origin direction : V) (seglen : L) (patch_id : Int) : Option (V × V) :=
  if 0 ≤ patch_id then hitOf ops self origin direction seglen patch_id.toNat else none

/-- The reference parameters after the hit `h` on slot `c` has been selected. -/
def hitRefs (c : Nat) (h : V × V) : CollideRefs V :=
  { patch_id := (c : Int), outtri := h.1, colpatch := some c, normal := h.2 }

/-- Among the candidates `cs`, the candidate `c` in place `k` is hit at `h`, no
candidate is hit nearer to `origin`, and every candidate hit before place `k` is hit
strictly farther: `c` is the first candidate whose hit attains the least squared
distance. -/
def nearestFirst [LE D] (ops : Collaborators G V L D B S) (self : ROADSTRIP G B)
    (origin direction : V) (seglen : L) (cs : List Nat) (k c : Nat) (h : V × V) : Prop :=
  cs[k]? = some c ∧ hitOf ops self origin direction seglen c = some h
    ∧ (∀ (j c2 : Nat) (h2 : V × V), cs[j]? = some c2 → hitOf ops self origin direction seglen c2 = some h2 →
        ops.MagnitudeSquared (ops.sub h.1 origin) ≤ ops.MagnitudeSquared (ops.sub h2.1 origin))
    ∧ (∀ (j c2 : Nat) (h2 : V × V), j < k → cs[j]? = some c2 →
        hitOf ops self origin direction seglen c2 = some h2 →
        ops.MagnitudeSquared (ops.sub h.1 origin) < ops.MagnitudeSquared (ops.sub h2.1 origin))

/-- Two states of the candidate loop agree on `col`, `outtri`, `normal` and
`colpatch`, and on `patch_id` once `col` is set. -/
def sameSearch (a b : Bool × CollideRefs V) : Prop :=
  a.1 = b.1 ∧ a.2.outtri = b.2.outtri ∧ a.2.normal = b.2.normal
    ∧ a.2.colpatch = b.2.colpatch ∧ (a.1 = true → a.2.patch_id = b.2.patch_id)

/-- The geometries of a patch sequence, in order: the records it is made of. -/
def geoms (ps : List (ROADPATCH G)) : List G :=
  ps.map fun p => p.patch.geom

/-- The geometries that `n` successive calls of `ReadFromYZX` read from the stream. -/
def records (ops : Collaborators G V L D B S) : Nat → S → List G
  | 0, _ => []
  | n + 1, s => (ops.ReadFromYZX s).1 :: records ops n (ops.ReadFromYZX s).2

/-- The stream after `n` successive calls of `ReadFromYZX`. -/
def skipRecords (ops : Collaborators G V L D B S) : Nat → S → S
  | 0, s => s
  | n + 1, s => skipRecords ops n (ops.ReadFromYZX s).2

/-- The records that pass validation, in source order. -/
def accepted (ops : Collaborators G V L D B S) (rs : List G) : List G :=
  rs.filter fun g => !ops.CheckForProblems g

/-- The number of records that fail validation. -/
def rejected (ops : Collaborators G V L D B S) (rs : List G) : Nat :=
  (rs.filter fun g => ops.CheckForProblems g).length

/-- The patch sequence of `ReadFrom` when it reaches the closure test (line 75):
the patches kept by the read loop, reversed when `reverse` is set. -/
def readPatches (ops : Collaborators G V L D B S) (openfile : S) (reverse : Bool) :
    List (ROADPATCH G) :=
  let st := readLoop ops (ops.readInt openfile).1.toNat
    { patches := [], badcount := 0, openfile := (ops.readInt openfile).2 }
  if reverse then reversePatches ops st.patches else st.patches

/-- The patch in slot `i` of `ps` is attached to the patch in slot `j`: its
`next_patch` is the address of slot `j`. -/
def attachedTo (ps : List (ROADPATCH G)) (i j : Nat) : Prop :=
  ∃ p, ps[i]? = some p ∧ p.patch.next_patch = some j

/-- The condition of the closure test, on the geometries of a sequence: more than
two patches, and the front corners of the last within the tolerance of the back
corners of the first. -/
def closesUp (ops : Collaborators G V L D B S) (gs : List G) : Prop :=
  2 < gs.length ∧ ∃ back front, gs.getLast? = some back ∧ gs.head? = some front ∧
    ops.Magnitude (ops.sub (ops.GetFL back) (ops.GetBL front)) < ops.tolerance ∧
    ops.Magnitude (ops.sub (ops.GetFR back) (ops.GetBR front)) < ops.tolerance

/-- What the connecting loop leaves when it ends: every patch but the last one is
attached to the slot after its own. -/
def chainFrom : Nat → List (ROADPATCH G) → List (ROADPATCH G)
  | _, [] => []
  | _, [p] => [p]
  | i, p :: q :: rest => { patch := p.patch.Attach (i + 1) } :: chainFrom (i + 1) (q :: rest)

/-- The loop of `ROADSTRIP::CreateRacingLine` (lines 152-159), with the iterator `i`
as its slot number and the elements from `*i` to the end: `n = i + 1`, and
`n = patches.begin()` when `i + 1 == patches.end()`.  The result lists the calls
`i->AddRacinglineScenenode(parentnode, *n, racingline_texture)` as pairs of the
slots of `*i` and `*n`. -/
def racingLineFrom : Nat → List (ROADPATCH G) → List (Nat × Nat)
  | _, [] => []
  | i, [_] => [(i, 0)]
  | i, _ :: q :: rest => (i, i + 1) :: racingLineFrom (i + 1) (q :: rest)

/-- `ROADSTRIP::CreateRacingLine` (lines 148-160): the pairs of patches handed to the
scene-graph builder, in order, each patch named by its slot. -/
def ROADSTRIP.CreateRacingLine (self : ROADSTRIP G B) : List (Nat × Nat) :=
  racingLineFrom 0 self.patches

/-- The call `prevbezier->Attach(patches.back().GetPatch())` of line 52 in the
iteration of the read loop that starts in state `st`: the geometry of `*prevbezier`
and of the patch just read; `none` when `prevbezier` is null. -/
def readStepCall (ops : Collaborators G V L D B S) (st : ReadState G S) : Option (G × G) :=
  match st.patches.getLast? with
  | none => none
  | some prev => some (prev.patch.geom, (ops.ReadFromYZX st.openfile).1)

/-- The calls of `Attach` made by the read loop with `n` iterations to go, in
order: source and target, before the target is validated. -/
def readLoopCalls (ops : Collaborators G V L D B S) : Nat → ReadState G S → List (G × G)
  | 0, _ => []
  | n + 1, st => (readStepCall ops st).toList ++ readLoopCalls ops n (readStep ops st)

/-- The calls `i->GetPatch().Attach(n->GetPatch())` of the connecting loop
(lines 80-84): source and target. -/
def connectCalls : List (ROADPATCH G) → List (G × G)
  | [] => []
  | [_] => []
  | p :: q :: rest => (p.patch.geom, q.patch.geom) :: connectCalls (q :: rest)

/-- The call `patches.back().GetPatch().Attach(patches.front().GetPatch())` of
line 87, made when `closed` is set. -/
def ringCall (closed : Bool) (ps : List (ROADPATCH G)) : List (G × G) :=
  if closed then
    match ps.getLast?, ps.head? with
    | some back, some front => [(back.patch.geom, front.patch.geom)]
    | _, _ => []
  else []

/-- The calls of `Attach` that `ReadFrom` makes in its read loop (line 52). -/
def readCalls (ops : Collaborators G V L D B S) (openfile : S) : List (G × G) :=
  readLoopCalls ops (ops.readInt openfile).1.toNat
    { patches := [], badcount := 0, openfile := (ops.readInt openfile).2 }

/-- The calls of `Attach` that `ReadFrom` makes in its final attachment pass
(lines 80-88); none when `reserve` throws. -/
def finalCalls (ops : Collaborators G V L D B S) (openfile : S) (reverse : Bool) :
    List (G × G) :=
  if (ops.readInt openfile).1 < 0 then []
  else
    connectCalls (readPatches ops openfile reverse)
      ++ ringCall (closureTest ops (readPatches ops openfile reverse))
          (readPatches ops openfile reverse)

/-- The attached successor of every patch of a sequence, in order. -/
def successors (ps : List (ROADPATCH G)) : List (Option Nat) :=
  ps.map fun p => p.patch.next_patch

/-- Following the spec (design notes and section 4.1, final chain attachment pass): the
successors a single chaining pass gives to `n` patches that carry no attachment
before it.  Patch `i` is attached to patch `i + 1`, the last patch is attached to
the first when the strip is closed, and there is no other attachment. -/
def singlePassSuccessors (n : Nat) (closed : Bool) : List (Option Nat) :=
  (List.range n).map fun i =>
    if i + 1 < n then some (i + 1) else if closed then some 0 else none

/-- The reference parameters `r` name a hit: the hint is a slot of the strip,
`colpatch` is the address of the patch in that slot, and `outtri` and `normal` are
the point and the normal that this patch reports for the ray. -/
def hitConsistent (ops : Collaborators G V L D B S) (self : ROADSTRIP G B)
    (origin direction : V) (seglen : L) (r : CollideRefs V) : Prop :=
  0 ≤ r.patch_id ∧ r.patch_id < (self.patches.length : Int)
    ∧ r.colpatch = some r.patch_id.toNat
    ∧ hitOf ops self origin direction seglen r.patch_id.toNat = some (r.outtri, r.normal)

/-- The reversal step applied to the geometries of a sequence. -/
def reversedGeoms (ops : Collaborators G V L D B S) (gs : List G) : List G :=
  gs.reverse.map ops.Reverse

end Build

/-- A small world to run the strip in: a patch is a stretch of a line, from its back
end to its front end; the left and right corners of an end coincide.  The stream
is a list of integers, the count first, then the back and the front of each
patch.  A patch whose ends coincide is malformed.  A ray starts at `origin` and
runs `seglen` steps of `direction`; it hits a patch where it first meets the
stretch. -/
def lineWorld : Collaborators (Int × Int) Int Int Nat (Int × Int) (List Int) where
  readInt s := (s.headD 0, s.tail)
  ReadFromYZX s := ((s.headD 0, s.tail.headD 0), s.tail.tail)
  CheckForProblems g := g.1 == g.2
  Reverse g := (g.2, g.1)
  GetFL g := g.2
  GetFR g := g.2
  GetBL g := g.1
  GetBR g := g.1
  sub a b := a - b
  Magnitude v := v.natAbs
  MagnitudeSquared v := v.natAbs * v.natAbs
  tolerance := 1
  GetAABB g := (min g.1 g.2, max g.1 g.2)
  Collide g origin direction seglen :=
    let lo := max (min g.1 g.2) (min origin (origin + direction * seglen))
    let hi := min (max g.1 g.2) (max origin (origin + direction * seglen))
    if lo ≤ hi then some (if origin < lo then lo else if hi < origin then hi else origin, 1)
    else none
  Query idx origin direction seglen :=
    (idx.filter fun e =>
      decide (max e.2.1 (min origin (origin + direction * seglen))
        ≤ min e.2.2 (max origin (origin + direction * seglen)))).map Prod.fst

/-- A strip that has not been built: what the constructor leaves. -/
def emptyStrip {G B : Type} : ROADSTRIP G B :=
  { patches := [], closed := false, aabb_part := [] }

section BuildLemmas

variable {G V L D B S : Type}

theorem geoms_attachAt (ps : List (ROADPATCH G)) (a b : Nat) :
    geoms (attachAt ps a b) = geoms ps := by
  induction ps generalizing a with
  | nil => rfl
  | cons p ps ih =>
    cases a with
    | zero => rfl
    | succ a => simp [attachAt, geoms] at ih ⊢; exact ih a

theorem length_attachAt (ps : List (ROADPATCH G)) (a b : Nat) :
    (attachAt ps a b).length = ps.length := by
  simpa [geoms] using congrArg List.length (geoms_attachAt ps a b)

theorem geoms_append (ps qs : List (ROADPATCH G)) : geoms (ps ++ qs) = geoms ps ++ geoms qs := by
  simp [geoms]

theorem geoms_dropLast (ps : List (ROADPATCH G)) : geoms ps.dropLast = (geoms ps).dropLast := by
  simp [geoms, List.map_dropLast]

theorem length_geoms (ps : List (ROADPATCH G)) : (geoms ps).length = ps.length := by
  simp [geoms]

/-- One iteration of the read loop keeps the record read exactly when it passes
validation, counts it otherwise, and moves the stream past it. -/
theorem readStep_spec (ops : Collaborators G V L D B S) (st : ReadState G S) :
    geoms (readStep ops st).patches
        = geoms st.patches ++ accepted ops [(ops.ReadFromYZX st.openfile).1]
      ∧ (readStep ops st).badcount
        = st.badcount + rejected ops [(ops.ReadFromYZX st.openfile).1]
      ∧ (readStep ops st).openfile = (ops.ReadFromYZX st.openfile).2 := by
  have hfresh : geoms [ROADPATCH.fresh (ops.ReadFromYZX st.openfile).1]
      = [(ops.ReadFromYZX st.openfile).1] := rfl
  cases hbad : ops.CheckForProblems (ops.ReadFromYZX st.openfile).1 <;>
    cases hemp : st.patches.isEmpty <;>
    simp [readStep, hbad, hemp, accepted, rejected, geoms_attachAt, geoms_append,
      geoms_dropLast, hfresh]

theorem readLoop_spec (ops : Collaborators G V L D B S) (n : Nat) (st : ReadState G S) :
    geoms (readLoop ops n st).patches
        = geoms st.patches ++ accepted ops (records ops n st.openfile)
      ∧ (readLoop ops n st).badcount = st.badcount + rejected ops (records ops n st.openfile)
      ∧ (readLoop ops n st).openfile = skipRecords ops n st.openfile := by
  induction n generalizing st with
  | zero => simp [readLoop, records, skipRecords, accepted, rejected]
  | succ n ih =>
    obtain ⟨h1, h2, h3⟩ := readStep_spec ops st
    obtain ⟨i1, i2, i3⟩ := ih (readStep ops st)
    simp only [readLoop, records, skipRecords]
    rw [i1, i2, i3, h1, h2, h3]
    refine ⟨?_, ?_, rfl⟩
    · simp [accepted, List.filter_cons]
      split <;> simp
    · simp [rejected, List.filter_cons]
      split
      · simp; omega
      · simp

theorem accepted_length (ops : Collaborators G V L D B S) (rs : List G) :
    (accepted ops rs).length = rs.length - rejected ops rs := by
  induction rs with
  | nil => rfl
  | cons r rs ih =>
    have hle : rejected ops rs ≤ rs.length := by
      unfold rejected; exact List.length_filter_le _ _
    cases h : ops.CheckForProblems r <;>
      simp [accepted, rejected, List.filter_cons, h] at ih hle ⊢ <;> omega

theorem length_records (ops : Collaborators G V L D B S) (n : Nat) (s : S) :
    (records ops n s).length = n := by
  induction n generalizing s with
  | zero => rfl
  | succ n ih => simp [records, ih]

theorem connectFrom_eq (i : Nat) (ps : List (ROADPATCH G)) (h : ps ≠ []) :
    connectFrom i ps = .ok (chainFrom i ps) := by
  induction ps generalizing i with
  | nil => exact absurd rfl h
  | cons p ps ih =>
    cases ps with
    | nil => rfl
    | cons q rest =>
      have := ih (i + 1) (by simp)
      simp [connectFrom, chainFrom, this]

theorem geoms_chainFrom (i : Nat) (ps : List (ROADPATCH G)) :
    geoms (chainFrom i ps) = geoms ps := by
  induction ps generalizing i with
  | nil => rfl
  | cons p ps ih =>
    cases ps with
    | nil => rfl
    | cons q rest =>
      have := ih (i + 1)
      simp [chainFrom, geoms, BEZIER.Attach] at this ⊢
      exact this

theorem length_chainFrom (i : Nat) (ps : List (ROADPATCH G)) :
    (chainFrom i ps).length = ps.length := by
  simpa [geoms] using congrArg List.length (geoms_chainFrom i ps)

/-- After the connecting loop, the patch in every slot but the last is attached to
the next slot. -/
theorem chainFrom_attached (i k : Nat) (ps : List (ROADPATCH G)) (h : k + 1 < ps.length) :
    ∃ p, (chainFrom i ps)[k]? = some p ∧ p.patch.next_patch = some (i + k + 1) := by
  induction ps generalizing i k with
  | nil => simp at h
  | cons p ps ih =>
    cases ps with
    | nil => simp at h
    | cons q rest =>
      cases k with
      | zero => exact ⟨{ patch := p.patch.Attach (i + 1) }, by simp [chainFrom], rfl⟩
      | succ k =>
        obtain ⟨r, hr, hn⟩ := ih (i + 1) k (by simpa using h)
        refine ⟨r, by simpa [chainFrom] using hr, ?_⟩
        rw [hn]; congr 1; omega

theorem attachAt_getElem?_ne (ps : List (ROADPATCH G)) (a b k : Nat) (h : k ≠ a) :
    (attachAt ps a b)[k]? = ps[k]? := by
  induction ps generalizing a k with
  | nil => rfl
  | cons p ps ih =>
    cases a with
    | zero =>
      cases k with
      | zero => exact absurd rfl h
      | succ k => simp [attachAt]
    | succ a =>
      cases k with
      | zero => simp [attachAt]
      | succ k => simpa [attachAt] using ih a k (by omega)

theorem attachAt_attached (ps : List (ROADPATCH G)) (a b : Nat) (h : a < ps.length) :
    attachedTo (attachAt ps a b) a b := by
  induction ps generalizing a with
  | nil => simp at h
  | cons p ps ih =>
    cases a with
    | zero => exact ⟨{ patch := p.patch.Attach b }, by simp [attachAt], rfl⟩
    | succ a =>
      obtain ⟨r, hr, hn⟩ := ih a (by simpa using h)
      exact ⟨r, by simpa [attachAt] using hr, hn⟩

theorem geoms_reversePatches (ops : Collaborators G V L D B S) (ps : List (ROADPATCH G)) :
    geoms (reversePatches ops ps) = ((geoms ps).reverse).map ops.Reverse := by
  simp [geoms, reversePatches, List.map_reverse]

/-- Without reversal, the sequence at the closure test is made of the accepted
records in source order. -/
theorem geoms_readPatches_forward (ops : Collaborators G V L D B S) (openfile : S) :
    geoms (readPatches ops openfile false)
      = accepted ops (records ops (ops.readInt openfile).1.toNat (ops.readInt openfile).2) := by
  have hs := (readLoop_spec ops (ops.readInt openfile).1.toNat
    { patches := [], badcount := 0, openfile := (ops.readInt openfile).2 }).1
  simpa [readPatches, geoms] using hs

/-- With reversal, the sequence at the closure test is made of the accepted records
in the reverse of source order, each turned around. -/
theorem geoms_readPatches_reverse (ops : Collaborators G V L D B S) (openfile : S) :
    geoms (readPatches ops openfile true)
      = ((accepted ops (records ops (ops.readInt openfile).1.toNat
          (ops.readInt openfile).2)).reverse).map ops.Reverse := by
  have hs := (readLoop_spec ops (ops.readInt openfile).1.toNat
    { patches := [], badcount := 0, openfile := (ops.readInt openfile).2 }).1
  simp only [readPatches, if_true, geoms_reversePatches, hs]
  simp [geoms]

/-- The sequence at the closure test is empty exactly when no record is accepted. -/
theorem readPatches_eq_nil_iff (ops : Collaborators G V L D B S) (openfile : S)
    (reverse : Bool) :
    readPatches ops openfile reverse = []
      ↔ accepted ops (records ops (ops.readInt openfile).1.toNat
          (ops.readInt openfile).2) = [] := by
  have key : ∀ ps : List (ROADPATCH G), ps = [] ↔ geoms ps = [] := by
    intro ps; simp [geoms]
  rw [key]
  cases reverse
  · rw [geoms_readPatches_forward]
  · rw [geoms_readPatches_reverse]; simp

end BuildLemmas

section ReadFromLemmas

variable {G V L D B S : Type} [LT D] [∀ a b : D, Decidable (a < b)]

/-- The closure test computes the closure condition. -/
theorem closureTest_iff (ops : Collaborators G V L D B S) (ps : List (ROADPATCH G)) :
    closureTest ops ps = true ↔ closesUp ops (geoms ps) := by
  unfold closureTest closesUp
  rcases hl : ps.getLast? with _ | back <;> rcases hf : ps.head? with _ | front <;>
    simp [geoms, hl, hf, List.getLast?_map, List.head?_map]

theorem closureTest_congr (ops : Collaborators G V L D B S) (ps qs : List (ROADPATCH G))
    (h : geoms ps = geoms qs) : closureTest ops ps = closureTest ops qs := by
  have h1 := closureTest_iff ops ps
  have h2 := closureTest_iff ops qs
  rw [h] at h1
  cases hp : closureTest ops ps <;> cases hq : closureTest ops qs <;> simp_all

/-- A call that declares a negative count stops in `reserve`. -/
theorem ReadFrom_negative (ops : Collaborators G V L D B S) (self : ROADSTRIP G B)
    (openfile : S) (reverse : Bool) (error_output : List String)
    (h : (ops.readInt openfile).1 < 0) :
    ROADSTRIP.ReadFrom ops self openfile reverse error_output =
      { ret := .error .length_error, strip := { self with patches := [] },
        openfile := (ops.readInt openfile).2, error_output := error_output } := by
  simp [ROADSTRIP.ReadFrom, h]

/-- A call that keeps no patch stops at the first dereference of the connecting
loop. -/
theorem ReadFrom_empty (ops : Collaborators G V L D B S) (self : ROADSTRIP G B)
    (openfile : S) (reverse : Bool) (error_output : List String)
    (h : 0 ≤ (ops.readInt openfile).1) (he : readPatches ops openfile reverse = []) :
    ROADSTRIP.ReadFrom ops self openfile reverse error_output =
      { ret := .error .out_of_range,
        strip := { self with patches := [], closed := false },
        openfile := (readLoop ops (ops.readInt openfile).1.toNat
          { patches := [], badcount := 0, openfile := (ops.readInt openfile).2 }).openfile,
        error_output := report (readLoop ops (ops.readInt openfile).1.toNat
          { patches := [], badcount := 0, openfile := (ops.readInt openfile).2 }).badcount
          error_output } := by
  unfold readPatches at he
  simp only [ROADSTRIP.ReadFrom, not_lt.mpr h, if_false]
  simp only [he]
  simp [connectFrom, closureTest]

/-- A call that keeps at least one patch returns `true`. -/
theorem ReadFrom_nonempty (ops : Collaborators G V L D B S) (self : ROADSTRIP G B)
    (openfile : S) (reverse : Bool) (error_output : List String)
    (h : 0 ≤ (ops.readInt openfile).1) (hne : readPatches ops openfile reverse ≠ []) :
    ROADSTRIP.ReadFrom ops self openfile reverse error_output =
      { ret := .ok true,
        strip := ROADSTRIP.GenerateSpacePartitioning ops
          { self with
            patches :=
              if closureTest ops (readPatches ops openfile reverse) then
                attachAt (chainFrom 0 (readPatches ops openfile reverse))
                  ((chainFrom 0 (readPatches ops openfile reverse)).length - 1) 0
              else chainFrom 0 (readPatches ops openfile reverse),
            closed := closureTest ops (readPatches ops openfile reverse) },
        openfile := (readLoop ops (ops.readInt openfile).1.toNat
          { patches := [], badcount := 0, openfile := (ops.readInt openfile).2 }).openfile,
        error_output := report (readLoop ops (ops.readInt openfile).1.toNat
          { patches := [], badcount := 0, openfile := (ops.readInt openfile).2 }).badcount
          error_output } := by
  have hc := connectFrom_eq 0 _ hne
  unfold readPatches at hc ⊢
  simp only [ROADSTRIP.ReadFrom, not_lt.mpr h, if_false]
  simp only [hc]

/-- The geometries of the sequence a call leaves are those of the sequence it had
at the closure test: connecting the patches changes no geometry. -/
theorem ReadFrom_geoms (ops : Collaborators G V L D B S) (self : ROADSTRIP G B)
    (openfile : S) (reverse : Bool) (error_output : List String)
    (h : 0 ≤ (ops.readInt openfile).1) :
    geoms (ROADSTRIP.ReadFrom ops self openfile reverse error_output).strip.patches
      = geoms (readPatches ops openfile reverse) := by
  by_cases he : readPatches ops openfile reverse = []
  · rw [ReadFrom_empty ops self openfile reverse error_output h he, he]
  · rw [ReadFrom_nonempty ops self openfile reverse error_output h he]
    simp only [ROADSTRIP.GenerateSpacePartitioning]
    split <;> simp [geoms_attachAt, geoms_chainFrom]

theorem ReadFrom_closed (ops : Collaborators G V L D B S) (self : ROADSTRIP G B)
    (openfile : S) (reverse : Bool) (error_output : List String)
    (h : 0 ≤ (ops.readInt openfile).1) :
    (ROADSTRIP.ReadFrom ops self openfile reverse error_output).strip.closed
      = closureTest ops (readPatches ops openfile reverse) := by
  by_cases he : readPatches ops openfile reverse = []
  · rw [ReadFrom_empty ops self openfile reverse error_output h he, he]
    simp [closureTest]
  · rw [ReadFrom_nonempty ops self openfile reverse error_output h he]
    simp [ROADSTRIP.GenerateSpacePartitioning]

theorem ReadFrom_stream (ops : Collaborators G V L D B S) (self : ROADSTRIP G B)
    (openfile : S) (reverse : Bool) (error_output : List String) :
    (ROADSTRIP.ReadFrom ops self openfile reverse error_output).openfile
      = skipRecords ops (ops.readInt openfile).1.toNat (ops.readInt openfile).2 := by
  by_cases h : 0 ≤ (ops.readInt openfile).1
  · have hs := (readLoop_spec ops (ops.readInt openfile).1.toNat
      { patches := [], badcount := 0, openfile := (ops.readInt openfile).2 }).2.2
    by_cases he : readPatches ops openfile reverse = []
    · rw [ReadFrom_empty ops self openfile reverse error_output h he]; exact hs
    · rw [ReadFrom_nonempty ops self openfile reverse error_output h he]; exact hs
  · have hneg : (ops.readInt openfile).1 < 0 := not_le.mp h
    rw [ReadFrom_negative ops self openfile reverse error_output hneg]
    have : (ops.readInt openfile).1.toNat = 0 := Int.toNat_eq_zero.mpr (le_of_lt hneg)
    simp [this, skipRecords]

theorem ReadFrom_output (ops : Collaborators G V L D B S) (self : ROADSTRIP G B)
    (openfile : S) (reverse : Bool) (error_output : List String)
    (h : 0 ≤ (ops.readInt openfile).1) :
    (ROADSTRIP.ReadFrom ops self openfile reverse error_output).error_output
      = report (rejected ops
          (records ops (ops.readInt openfile).1.toNat (ops.readInt openfile).2))
          error_output := by
  have hs := (readLoop_spec ops (ops.readInt openfile).1.toNat
    { patches := [], badcount := 0, openfile := (ops.readInt openfile).2 }).2.1
  simp only [Nat.zero_add] at hs
  by_cases he : readPatches ops openfile reverse = []
  · rw [ReadFrom_empty ops self openfile reverse error_output h he, hs]
  · rw [ReadFrom_nonempty ops self openfile reverse error_output h he, hs]

end ReadFromLemmas

section HintLemmas

variable {G V L D B S : Type}

/-- A hint outside `[0, size)` is no hint. -/
theorem hintHit_invalid (ops : Collaborators G V L D B S) (self : ROADSTRIP G B)
    (origin direction : V) (seglen : L) (patch_id : Int)
    (h : patch_id < 0 ∨ (self.patches.length : Int) ≤ patch_id) :
    hintHit ops self origin direction seglen patch_id = none := by
  unfold hintHit hitOf
  by_cases h0 : 0 ≤ patch_id
  · have hge : self.patches.length ≤ patch_id.toNat := by omega
    simp [h0, List.getElem?_eq_none hge]
  · simp [h0]

/-- A slot beyond the end of the strip is not hit. -/
theorem hitOf_eq_none_of_length_le (ops : Collaborators G V L D B S) (self : ROADSTRIP G B)
    (origin direction : V) (seglen : L) (j : Nat) (h : self.patches.length ≤ j) :
    hitOf ops self origin direction seglen j = none := by
  simp [hitOf, List.getElem?_eq_none h]

/-- On the strip of four patches in a row from 0 to 15, the ray from 9 of length 1
hits the patch in slot 2 only. -/
theorem rowStrip_hit_only_third (j : Nat)
    (hj : hitOf lineWorld
      (ROADSTRIP.ReadFrom lineWorld emptyStrip [4, 0, 3, 4, 7, 8, 11, 12, 15] false []).strip
      9 1 1 j ≠ none) : j = 2 := by
  have h4 : j < 4 := by
    by_contra hge
    exact hj (hitOf_eq_none_of_length_le _ _ _ _ _ j
      (by rw [show (ROADSTRIP.ReadFrom lineWorld emptyStrip
            [4, 0, 3, 4, 7, 8, 11, 12, 15] false []).strip.patches.length = 4 from by decide]
          omega))
  interval_cases j
  · exact absurd (by decide) hj
  · exact absurd (by decide) hj
  · rfl
  · exact absurd (by decide) hj

end HintLemmas

section CollideLemmas

variable {G V L D B S : Type} [LT D] [∀ a b : D, Decidable (a < b)]

/-- The loop body on a candidate that is a slot of the strip. -/
theorem collideCandidate_eq (ops : Collaborators G V L D B S) (self : ROADSTRIP G B)
    (origin direction : V) (seglen : L) (acc : Bool × CollideRefs V) (c : Nat)
    (hc : c < self.patches.length) :
    collideCandidate ops self origin direction seglen acc c =
      match hitOf ops self origin direction seglen c with
      | none => .ok acc
      | some h =>
        if !acc.1 || decide (ops.MagnitudeSquared (ops.sub h.1 origin)
            < ops.MagnitudeSquared (ops.sub acc.2.outtri origin)) then
          .ok (true, hitRefs c h)
        else .ok (true, acc.2) := by
  unfold collideCandidate hitOf
  rw [List.getElem?_eq_getElem hc]
  simp only
  cases ops.Collide self.patches[c].patch.geom origin direction seglen with
  | none => rfl
  | some h => rfl

/-- `Collide` is the fast path when the hinted patch is hit and the fallback search
otherwise. -/
theorem Collide_eq (ops : Collaborators G V L D B S) (self : ROADSTRIP G B)
    (origin direction : V) (seglen : L) (refs : CollideRefs V) :
    ROADSTRIP.Collide ops self origin direction seglen refs =
      match hintHit ops self origin direction seglen refs.patch_id with
      | some h =>
        .ok (true, { refs with outtri := h.1, normal := h.2,
                               colpatch := some refs.patch_id.toNat })
      | none => fallbackSearch ops self origin direction seglen refs := by
  unfold ROADSTRIP.Collide hintHit hitOf
  by_cases h0 : 0 ≤ refs.patch_id
  · by_cases h1 : refs.patch_id < (self.patches.length : Int)
    · have hlt : refs.patch_id.toNat < self.patches.length := by omega
      simp only [h0, h1, and_self, if_true, List.getElem?_eq_getElem hlt]
      cases ops.Collide self.patches[refs.patch_id.toNat].patch.geom origin direction seglen with
      | none => rfl
      | some h => rfl
    · have hge : self.patches.length ≤ refs.patch_id.toNat := by omega
      simp [h0, h1, List.getElem?_eq_none hge]
  · simp [h0]

/-- When no candidate is hit, the loop changes nothing. -/
theorem collideCandidates_miss (ops : Collaborators G V L D B S) (self : ROADSTRIP G B)
    (origin direction : V) (seglen : L) (cs : List Nat) (acc : Bool × CollideRefs V)
    (hvalid : ∀ c ∈ cs, c < self.patches.length)
    (hmiss : ∀ c ∈ cs, hitOf ops self origin direction seglen c = none) :
    collideCandidates ops self origin direction seglen cs acc = .ok acc := by
  induction cs with
  | nil => rfl
  | cons c cs ih =>
    have h1 := collideCandidate_eq ops self origin direction seglen acc c
      (hvalid c (List.mem_cons_self _ _))
    rw [hmiss c (List.mem_cons_self _ _)] at h1
    simp only [collideCandidates, h1]
    exact ih (fun x hx => hvalid x (List.mem_cons_of_mem _ hx))
      (fun x hx => hmiss x (List.mem_cons_of_mem _ hx))

/-- The loop never resets `col`, and while `col` is `false` the reference parameters
are those on entry. -/
theorem collideCandidates_false (ops : Collaborators G V L D B S) (self : ROADSTRIP G B)
    (origin direction : V) (seglen : L) (cs : List Nat) (acc : Bool × CollideRefs V)
    (r : CollideRefs V)
    (h : collideCandidates ops self origin direction seglen cs acc = .ok (false, r)) :
    acc = (false, r) := by
  induction cs generalizing acc with
  | nil => simpa [collideCandidates] using h
  | cons c cs ih =>
    simp only [collideCandidates] at h
    cases hstep : collideCandidate ops self origin direction seglen acc c with
    | error f => rw [hstep] at h; cases h
    | ok acc2 =>
      rw [hstep] at h
      have h2 := ih acc2 h
      subst h2
      unfold collideCandidate at hstep
      split at hstep
      · cases hstep
      · split at hstep
        · cases hstep; rfl
        · split at hstep <;> cases hstep

theorem collideCandidate_same (ops : Collaborators G V L D B S) (self : ROADSTRIP G B)
    (origin direction : V) (seglen : L) (c : Nat) (a b : Bool × CollideRefs V)
    (hab : sameSearch a b) :
    match collideCandidate ops self origin direction seglen a c,
        collideCandidate ops self origin direction seglen b c with
    | .ok a2, .ok b2 => sameSearch a2 b2
    | .error f, .error g => f = g
    | _, _ => False := by
  obtain ⟨h1, h2, h3, h4, h5⟩ := hab
  unfold collideCandidate
  cases self.patches[c]? with
  | none => simp
  | some p =>
    simp only
    cases ops.Collide p.patch.geom origin direction seglen with
    | none => exact ⟨h1, h2, h3, h4, h5⟩
    | some hit =>
      obtain ⟨coltri, colnorm⟩ := hit
      simp only [h1, h2]
      by_cases hcond : (!b.1 || decide (ops.MagnitudeSquared (ops.sub coltri origin)
          < ops.MagnitudeSquared (ops.sub b.2.outtri origin))) = true
      · rw [if_pos hcond, if_pos hcond]
        exact ⟨rfl, rfl, rfl, rfl, fun _ => rfl⟩
      · rw [if_neg hcond, if_neg hcond]
        have hb : b.1 = true := by
          cases hb : b.1
          · simp [hb] at hcond
          · rfl
        exact ⟨rfl, h2, h3, h4, fun _ => h5 (by rw [h1, hb])⟩

theorem collideCandidates_same (ops : Collaborators G V L D B S) (self : ROADSTRIP G B)
    (origin direction : V) (seglen : L) (cs : List Nat) (a b : Bool × CollideRefs V)
    (hab : sameSearch a b) :
    match collideCandidates ops self origin direction seglen cs a,
        collideCandidates ops self origin direction seglen cs b with
    | .ok a2, .ok b2 => sameSearch a2 b2
    | .error f, .error g => f = g
    | _, _ => False := by
  induction cs generalizing a b with
  | nil => exact hab
  | cons c cs ih =>
    have hstep := collideCandidate_same ops self origin direction seglen c a b hab
    simp only [collideCandidates]
    cases ha : collideCandidate ops self origin direction seglen a c with
    | error f =>
      cases hb : collideCandidate ops self origin direction seglen b c with
      | error g => rw [ha, hb] at hstep; simpa using hstep
      | ok b2 => rw [ha, hb] at hstep; exact hstep.elim
    | ok a2 =>
      cases hb : collideCandidate ops self origin direction seglen b c with
      | error g => rw [ha, hb] at hstep; exact hstep.elim
      | ok b2 =>
        rw [ha, hb] at hstep
        exact ih a2 b2 hstep

/-- When one slot only is hit and it is the current selection, the loop keeps it. -/
theorem collideCandidates_unique_kept (ops : Collaborators G V L D B S) (self : ROADSTRIP G B)
    (origin direction : V) (seglen : L) (cs : List Nat) (i : Nat) (h : V × V)
    (hvalid : ∀ c ∈ cs, c < self.patches.length)
    (hhit : hitOf ops self origin direction seglen i = some h)
    (huniq : ∀ j, hitOf ops self origin direction seglen j ≠ none → j = i) :
    collideCandidates ops self origin direction seglen cs (true, hitRefs i h)
      = .ok (true, hitRefs i h) := by
  induction cs with
  | nil => rfl
  | cons c cs ih =>
    have hv : ∀ x ∈ cs, x < self.patches.length :=
      fun x hx => hvalid x (List.mem_cons_of_mem _ hx)
    have hstep := collideCandidate_eq ops self origin direction seglen (true, hitRefs i h) c
      (hvalid c (List.mem_cons_self _ _))
    cases hc : hitOf ops self origin direction seglen c with
    | none =>
      rw [hc] at hstep
      simp only [collideCandidates, hstep]
      exact ih hv
    | some h1 =>
      have hci : c = i := huniq c (by rw [hc]; simp)
      subst hci
      rw [hhit] at hc
      cases hc
      rw [hhit] at hstep
      have hstep2 : collideCandidate ops self origin direction seglen (true, hitRefs c h) c
          = .ok (true, hitRefs c h) := by
        rw [hstep]
        simp only
        split <;> rfl
      simp only [collideCandidates, hstep2]
      exact ih hv

/-- When one slot only is hit and it is among the candidates, the loop selects it. -/
theorem collideCandidates_unique (ops : Collaborators G V L D B S) (self : ROADSTRIP G B)
    (origin direction : V) (seglen : L) (cs : List Nat) (i : Nat) (h : V × V)
    (refs : CollideRefs V)
    (hvalid : ∀ c ∈ cs, c < self.patches.length)
    (hmem : i ∈ cs)
    (hhit : hitOf ops self origin direction seglen i = some h)
    (huniq : ∀ j, hitOf ops self origin direction seglen j ≠ none → j = i) :
    collideCandidates ops self origin direction seglen cs (false, refs)
      = .ok (true, hitRefs i h) := by
  induction cs with
  | nil => simp at hmem
  | cons c cs ih =>
    have hv : ∀ x ∈ cs, x < self.patches.length :=
      fun x hx => hvalid x (List.mem_cons_of_mem _ hx)
    have hstep := collideCandidate_eq ops self origin direction seglen (false, refs) c
      (hvalid c (List.mem_cons_self _ _))
    cases hc : hitOf ops self origin direction seglen c with
    | none =>
      rw [hc] at hstep
      simp only [collideCandidates, hstep]
      rcases List.mem_cons.mp hmem with rfl | hm
      · rw [hhit] at hc; cases hc
      · exact ih hv hm
    | some h1 =>
      have hci : c = i := huniq c (by rw [hc]; simp)
      subst hci
      rw [hhit] at hc
      cases hc
      rw [hhit] at hstep
      have hstep2 : collideCandidate ops self origin direction seglen (false, refs) c
          = .ok (true, hitRefs c h) := by
        rw [hstep]; simp
      simp only [collideCandidates, hstep2]
      exact collideCandidates_unique_kept ops self origin direction seglen cs c h hv hhit huniq

end CollideLemmas

section NearestLemmas

variable {G V L D B S : Type} [LinearOrder D]

/-- A candidate list with one more candidate in front, which is not hit, or is hit
no nearer than `h`, and strictly farther when it is hit at all. -/
theorem nearestFirst_cons (ops : Collaborators G V L D B S) (self : ROADSTRIP G B)
    (origin direction : V) (seglen : L) (cs : List Nat) (k c c0 : Nat) (h : V × V)
    (hn : nearestFirst ops self origin direction seglen cs k c h)
    (h0 : ∀ h2, hitOf ops self origin direction seglen c0 = some h2 →
      ops.MagnitudeSquared (ops.sub h.1 origin) < ops.MagnitudeSquared (ops.sub h2.1 origin)) :
    nearestFirst ops self origin direction seglen (c0 :: cs) (k + 1) c h := by
  obtain ⟨hk, hh, hall, hbefore⟩ := hn
  refine ⟨by simpa using hk, hh, ?_, ?_⟩
  · intro j c2 h2 hj hc2
    cases j with
    | zero =>
      simp only [List.getElem?_cons_zero, Option.some.injEq] at hj
      subst hj
      exact le_of_lt (h0 h2 hc2)
    | succ j => exact hall j c2 h2 (by simpa using hj) hc2
  · intro j c2 h2 hlt hj hc2
    cases j with
    | zero =>
      simp only [List.getElem?_cons_zero, Option.some.injEq] at hj
      subst hj
      exact h0 h2 hc2
    | succ j => exact hbefore j c2 h2 (by omega) (by simpa using hj) hc2

/-- The head of a candidate list is the nearest first hit when no later candidate is
hit nearer. -/
theorem nearestFirst_head (ops : Collaborators G V L D B S) (self : ROADSTRIP G B)
    (origin direction : V) (seglen : L) (cs : List Nat) (c : Nat) (h : V × V)
    (hh : hitOf ops self origin direction seglen c = some h)
    (hall : ∀ (j c2 : Nat) (h2 : V × V), cs[j]? = some c2 → hitOf ops self origin direction seglen c2 = some h2 →
      ops.MagnitudeSquared (ops.sub h.1 origin) ≤ ops.MagnitudeSquared (ops.sub h2.1 origin)) :
    nearestFirst ops self origin direction seglen (c :: cs) 0 c h := by
  refine ⟨by simp, hh, ?_, fun j _ _ hlt => absurd hlt (Nat.not_lt_zero j)⟩
  intro j c2 h2 hj hc2
  cases j with
  | zero =>
    simp only [List.getElem?_cons_zero, Option.some.injEq] at hj
    subst hj
    rw [hh] at hc2
    cases hc2
    exact le_refl _
  | succ j => exact hall j c2 h2 (by simpa using hj) hc2

/-- The candidate loop entered with `col = true` and the selection `r0`: it keeps `r0`
when no candidate is hit nearer, and otherwise ends on the first candidate whose hit
attains the least squared distance. -/
theorem collideCandidates_improve (ops : Collaborators G V L D B S) (self : ROADSTRIP G B)
    (origin direction : V) (seglen : L) (cs : List Nat) (r0 : CollideRefs V)
    (hvalid : ∀ c ∈ cs, c < self.patches.length) :
    (collideCandidates ops self origin direction seglen cs (true, r0) = .ok (true, r0)
        ∧ ∀ (j c2 : Nat) (h2 : V × V), cs[j]? = some c2 → hitOf ops self origin direction seglen c2 = some h2 →
          ops.MagnitudeSquared (ops.sub r0.outtri origin)
            ≤ ops.MagnitudeSquared (ops.sub h2.1 origin))
      ∨ ∃ k c h, nearestFirst ops self origin direction seglen cs k c h
        ∧ collideCandidates ops self origin direction seglen cs (true, r0)
          = .ok (true, hitRefs c h)
        ∧ ops.MagnitudeSquared (ops.sub h.1 origin)
          < ops.MagnitudeSquared (ops.sub r0.outtri origin) := by
  induction cs generalizing r0 with
  | nil => exact Or.inl ⟨rfl, fun j c2 h2 hj => by simp at hj⟩
  | cons c cs ih =>
    have hv : ∀ x ∈ cs, x < self.patches.length :=
      fun x hx => hvalid x (List.mem_cons_of_mem _ hx)
    have hstep := collideCandidate_eq ops self origin direction seglen (true, r0) c
      (hvalid c (List.mem_cons_self _ _))
    cases hc : hitOf ops self origin direction seglen c with
    | none =>
      rw [hc] at hstep
      simp only [collideCandidates, hstep]
      rcases ih r0 hv with ⟨hres, hall⟩ | ⟨k, c1, h, hn, hres, hlt⟩
      · refine Or.inl ⟨hres, ?_⟩
        intro j c2 h2 hj hc2
        cases j with
        | zero =>
          simp only [List.getElem?_cons_zero, Option.some.injEq] at hj
          subst hj
          rw [hc] at hc2
          cases hc2
        | succ j => exact hall j c2 h2 (by simpa using hj) hc2
      · refine Or.inr ⟨k + 1, c1, h, ?_, hres, hlt⟩
        exact nearestFirst_cons ops self origin direction seglen cs k c1 c h hn
          (fun h2 hh2 => by rw [hc] at hh2; cases hh2)
    | some h1 =>
      rw [hc] at hstep
      by_cases hnear : ops.MagnitudeSquared (ops.sub h1.1 origin)
          < ops.MagnitudeSquared (ops.sub r0.outtri origin)
      · have hstep2 : collideCandidate ops self origin direction seglen (true, r0) c
            = .ok (true, hitRefs c h1) := by
          rw [hstep]; simp [hnear]
        simp only [collideCandidates, hstep2]
        rcases ih (hitRefs c h1) hv with ⟨hres, hall⟩ | ⟨k, c1, h, hn, hres, hlt⟩
        · refine Or.inr ⟨0, c, h1, ?_, hres, hnear⟩
          exact nearestFirst_head ops self origin direction seglen cs c h1 hc hall
        · refine Or.inr ⟨k + 1, c1, h, ?_, hres, lt_trans hlt hnear⟩
          refine nearestFirst_cons ops self origin direction seglen cs k c1 c h hn ?_
          intro h2 hh2
          rw [hc] at hh2
          cases hh2
          exact hlt
      · have hstep2 : collideCandidate ops self origin direction seglen (true, r0) c
            = .ok (true, r0) := by
          rw [hstep]; simp [hnear]
        simp only [collideCandidates, hstep2]
        rcases ih r0 hv with ⟨hres, hall⟩ | ⟨k, c1, h, hn, hres, hlt⟩
        · refine Or.inl ⟨hres, ?_⟩
          intro j c2 h2 hj hc2
          cases j with
          | zero =>
            simp only [List.getElem?_cons_zero, Option.some.injEq] at hj
            subst hj
            rw [hc] at hc2
            cases hc2
            exact not_lt.mp hnear
          | succ j => exact hall j c2 h2 (by simpa using hj) hc2
        · refine Or.inr ⟨k + 1, c1, h, ?_, hres, hlt⟩
          refine nearestFirst_cons ops self origin direction seglen cs k c1 c h hn ?_
          intro h2 hh2
          rw [hc] at hh2
          cases hh2
          exact lt_of_lt_of_le hlt (not_lt.mp hnear)

/-- The candidate loop entered with `col = false`: when some candidate is hit, it ends
on the first candidate whose hit attains the least squared distance. -/
theorem collideCandidates_nearest (ops : Collaborators G V L D B S) (self : ROADSTRIP G B)
    (origin direction : V) (seglen : L) (cs : List Nat) (refs : CollideRefs V)
    (hvalid : ∀ c ∈ cs, c < self.patches.length)
    (hsome : ∃ c ∈ cs, hitOf ops self origin direction seglen c ≠ none) :
    ∃ k c h, nearestFirst ops self origin direction seglen cs k c h
      ∧ collideCandidates ops self origin direction seglen cs (false, refs)
        = .ok (true, hitRefs c h) := by
  induction cs with
  | nil =>
    obtain ⟨c, hc, _⟩ := hsome
    simp at hc
  | cons c cs ih =>
    have hv : ∀ x ∈ cs, x < self.patches.length :=
      fun x hx => hvalid x (List.mem_cons_of_mem _ hx)
    have hstep := collideCandidate_eq ops self origin direction seglen (false, refs) c
      (hvalid c (List.mem_cons_self _ _))
    cases hc : hitOf ops self origin direction seglen c with
    | none =>
      rw [hc] at hstep
      simp only [collideCandidates, hstep]
      have hsome2 : ∃ x ∈ cs, hitOf ops self origin direction seglen x ≠ none := by
        obtain ⟨x, hx, hne⟩ := hsome
        rcases List.mem_cons.mp hx with rfl | hx
        · exact absurd hc hne
        · exact ⟨x, hx, hne⟩
      obtain ⟨k, c1, h, hn, hres⟩ := ih hv hsome2
      refine ⟨k + 1, c1, h, ?_, hres⟩
      exact nearestFirst_cons ops self origin direction seglen cs k c1 c h hn
        (fun h2 hh2 => by rw [hc] at hh2; cases hh2)
    | some h1 =>
      rw [hc] at hstep
      have hstep2 : collideCandidate ops self origin direction seglen (false, refs) c
          = .ok (true, hitRefs c h1) := by
        rw [hstep]; simp
      simp only [collideCandidates, hstep2]
      rcases collideCandidates_improve ops self origin direction seglen cs (hitRefs c h1) hv
        with ⟨hres, hall⟩ | ⟨k, c1, h, hn, hres, hlt⟩
      · exact ⟨0, c, h1, nearestFirst_head ops self origin direction seglen cs c h1 hc hall, hres⟩
      · refine ⟨k + 1, c1, h, ?_, hres⟩
        refine nearestFirst_cons ops self origin direction seglen cs k c1 c h hn ?_
        intro h2 hh2
        rw [hc] at hh2
        cases hh2
        exact hlt

end NearestLemmas

section Claims

variable {G V L D B S : Type} [LT D] [∀ a b : D, Decidable (a < b)]

/-- C1 (rejection accounting).  For every source, with `N` the declared count and `M`
the number of the `N` records that fail validation, `ReadFrom` with
`reverse = false` leaves the stream just past the `N` records and a sequence whose
patches are exactly the records that pass validation, in source order; its length
is `N - M`; and the call returns `true` as soon as one record is accepted. -/
theorem readFrom_rejection_accounting (ops : Collaborators G V L D B S)
    (self : ROADSTRIP G B) (openfile : S) (error_output : List String) :
    geoms (ROADSTRIP.ReadFrom ops self openfile false error_output).strip.patches
        = accepted ops (records ops (ops.readInt openfile).1.toNat (ops.readInt openfile).2)
      ∧ (ROADSTRIP.ReadFrom ops self openfile false error_output).openfile
        = skipRecords ops (ops.readInt openfile).1.toNat (ops.readInt openfile).2
      ∧ (ROADSTRIP.ReadFrom ops self openfile false error_output).strip.patches.length
        = (ops.readInt openfile).1.toNat
          - rejected ops (records ops (ops.readInt openfile).1.toNat (ops.readInt openfile).2)
      ∧ (0 < (ops.readInt openfile).1.toNat
          - rejected ops (records ops (ops.readInt openfile).1.toNat (ops.readInt openfile).2)
        → (ROADSTRIP.ReadFrom ops self openfile false error_output).ret = .ok true) := by
  have hlen := accepted_length ops
    (records ops (ops.readInt openfile).1.toNat (ops.readInt openfile).2)
  rw [length_records] at hlen
  have hg : geoms (ROADSTRIP.ReadFrom ops self openfile false error_output).strip.patches
      = accepted ops
          (records ops (ops.readInt openfile).1.toNat (ops.readInt openfile).2) := by
    by_cases h : 0 ≤ (ops.readInt openfile).1
    · rw [ReadFrom_geoms ops self openfile false error_output h]
      exact geoms_readPatches_forward ops openfile
    · have hneg : (ops.readInt openfile).1 < 0 := not_le.mp h
      rw [ReadFrom_negative ops self openfile false error_output hneg]
      have : (ops.readInt openfile).1.toNat = 0 := Int.toNat_eq_zero.mpr (le_of_lt hneg)
      simp [this, records, accepted, geoms]
  refine ⟨hg, ReadFrom_stream ops self openfile false error_output, ?_, ?_⟩
  · rw [← length_geoms, hg, hlen]
  · intro hpos
    have hnum : 0 ≤ (ops.readInt openfile).1 := by
      by_contra hc
      have : (ops.readInt openfile).1.toNat = 0 :=
        Int.toNat_eq_zero.mpr (le_of_lt (not_le.mp hc))
      omega
    have hne : readPatches ops openfile false ≠ [] := by
      intro he
      have := geoms_readPatches_forward ops openfile
      rw [he] at this
      have hz := congrArg List.length this
      simp only [geoms, List.map_nil, List.length_nil] at hz
      omega
    rw [ReadFrom_nonempty ops self openfile false error_output hnum hne]

/-- C2 (closure detection).  For every source with a count that is not negative and
either value of `reverse`, `closed` is `true` after `ReadFrom` exactly when the
sequence it leaves has more than 2 patches and the front-left and front-right
corners of its last patch lie within the tolerance of the back-left and back-right
corners of its first patch; in particular `closed` is `false` when the sequence has
at most 2 patches. -/
theorem readFrom_closed_iff (ops : Collaborators G V L D B S) (self : ROADSTRIP G B)
    (openfile : S) (reverse : Bool) (error_output : List String)
    (hnum : 0 ≤ (ops.readInt openfile).1) :
    ((ROADSTRIP.ReadFrom ops self openfile reverse error_output).strip.closed = true
        ↔ closesUp ops
            (geoms (ROADSTRIP.ReadFrom ops self openfile reverse error_output).strip.patches))
      ∧ ((ROADSTRIP.ReadFrom ops self openfile reverse error_output).strip.patches.length ≤ 2
        → (ROADSTRIP.ReadFrom ops self openfile reverse error_output).strip.closed = false) := by
  have hiff : (ROADSTRIP.ReadFrom ops self openfile reverse error_output).strip.closed = true
      ↔ closesUp ops
          (geoms (ROADSTRIP.ReadFrom ops self openfile reverse error_output).strip.patches) := by
    rw [ReadFrom_closed ops self openfile reverse error_output hnum,
      ReadFrom_geoms ops self openfile reverse error_output hnum]
    exact closureTest_iff ops _
  refine ⟨hiff, fun hle => ?_⟩
  cases hc : (ROADSTRIP.ReadFrom ops self openfile reverse error_output).strip.closed
  · rfl
  · have := (hiff.mp hc).1
    rw [length_geoms] at this
    omega

/-- Witness of C2: three patches laid on a line from 0 to 5, 5 to 9 and 9 back to 0,
built in reverse, close up. -/
theorem readFrom_closed_iff_witness :
    (ROADSTRIP.ReadFrom lineWorld emptyStrip [3, 0, 5, 5, 9, 9, 0] true []).strip.closed = true
      ∧ closesUp lineWorld (geoms
          (ROADSTRIP.ReadFrom lineWorld emptyStrip [3, 0, 5, 5, 9, 9, 0] true []).strip.patches) :=
  ⟨by decide,
   (readFrom_closed_iff lineWorld emptyStrip [3, 0, 5, 5, 9, 9, 0] true []
      (by decide)).1.mp (by decide)⟩

/-- C3 (empty strip), as the code behaves: when the declared count is not negative
and no record is accepted, `ReadFrom` does not return for either value of
`reverse`: the connecting loop dereferences `patches.begin()` of the empty vector.
The sequence is empty and `closed` is `false` at that point, and the spatial index
still holds what it held before the call. -/
theorem readFrom_empty_out_of_range (ops : Collaborators G V L D B S) (self : ROADSTRIP G B)
    (openfile : S) (reverse : Bool) (error_output : List String)
    (hnum : 0 ≤ (ops.readInt openfile).1)
    (hnone : accepted ops (records ops (ops.readInt openfile).1.toNat
      (ops.readInt openfile).2) = []) :
    (ROADSTRIP.ReadFrom ops self openfile reverse error_output).ret = .error .out_of_range
      ∧ (ROADSTRIP.ReadFrom ops self openfile reverse error_output).strip
        = { patches := [], closed := false, aabb_part := self.aabb_part } := by
  have he := (readPatches_eq_nil_iff ops openfile reverse).mpr hnone
  rw [ReadFrom_empty ops self openfile reverse error_output hnum he]
  exact ⟨rfl, rfl⟩

/-- Witness of C3: the source that declares 0 patches. -/
theorem readFrom_empty_out_of_range_witness :
    (ROADSTRIP.ReadFrom lineWorld emptyStrip [0] false []).ret = .error .out_of_range
      ∧ (ROADSTRIP.ReadFrom lineWorld emptyStrip [0] false []).strip
        = { patches := [], closed := false, aabb_part := [] } :=
  readFrom_empty_out_of_range lineWorld emptyStrip [0] false [] (by decide) (by decide)

/-- C4 (chain invariant).  Whenever the sequence `ReadFrom` leaves is not empty, the
call has returned `true`, the patch in every slot `i` before the last is attached to
the patch in slot `i + 1`, and when `closed` is `true` the last patch is attached to
the first. -/
theorem readFrom_chain (ops : Collaborators G V L D B S) (self : ROADSTRIP G B)
    (openfile : S) (reverse : Bool) (error_output : List String)
    (hne : (ROADSTRIP.ReadFrom ops self openfile reverse error_output).strip.patches ≠ []) :
    (ROADSTRIP.ReadFrom ops self openfile reverse error_output).ret = .ok true
      ∧ (∀ i, i + 1
            < (ROADSTRIP.ReadFrom ops self openfile reverse error_output).strip.patches.length →
          attachedTo (ROADSTRIP.ReadFrom ops self openfile reverse error_output).strip.patches
            i (i + 1))
      ∧ ((ROADSTRIP.ReadFrom ops self openfile reverse error_output).strip.closed = true →
          attachedTo (ROADSTRIP.ReadFrom ops self openfile reverse error_output).strip.patches
            ((ROADSTRIP.ReadFrom ops self openfile reverse error_output).strip.patches.length - 1)
            0) := by
  have hnum : 0 ≤ (ops.readInt openfile).1 := by
    by_contra hc
    rw [ReadFrom_negative ops self openfile reverse error_output (not_le.mp hc)] at hne
    exact hne rfl
  have hps : readPatches ops openfile reverse ≠ [] := by
    intro he
    rw [ReadFrom_empty ops self openfile reverse error_output hnum he] at hne
    exact hne rfl
  have hpos : 0 < (readPatches ops openfile reverse).length := List.length_pos.mpr hps
  rw [ReadFrom_nonempty ops self openfile reverse error_output hnum hps]
  simp only [ROADSTRIP.GenerateSpacePartitioning]
  cases hc : closureTest ops (readPatches ops openfile reverse)
  · refine ⟨trivial, fun i hi => ?_, fun h => by simp at h⟩
    simp only [Bool.false_eq_true, if_false, length_chainFrom] at hi ⊢
    simpa using chainFrom_attached 0 i _ hi
  · refine ⟨trivial, fun i hi => ?_, fun _ => ?_⟩
    · simp only [if_true, length_attachAt, length_chainFrom] at hi ⊢
      obtain ⟨p, hp, hn⟩ := chainFrom_attached 0 i _ hi
      refine ⟨p, ?_, by simpa using hn⟩
      rw [attachAt_getElem?_ne _ _ _ _ (by omega)]
      exact hp
    · simp only [if_true, length_attachAt, length_chainFrom]
      exact attachAt_attached _ _ _ (by rw [length_chainFrom]; omega)

/-- Witness of C4: the closed strip of three patches on a line. -/
theorem readFrom_chain_witness :
    (ROADSTRIP.ReadFrom lineWorld emptyStrip [3, 0, 5, 5, 9, 9, 0] false []).ret = .ok true
      ∧ (∀ i, i + 1
            < (ROADSTRIP.ReadFrom lineWorld emptyStrip
                [3, 0, 5, 5, 9, 9, 0] false []).strip.patches.length →
          attachedTo (ROADSTRIP.ReadFrom lineWorld emptyStrip
            [3, 0, 5, 5, 9, 9, 0] false []).strip.patches i (i + 1))
      ∧ ((ROADSTRIP.ReadFrom lineWorld emptyStrip
            [3, 0, 5, 5, 9, 9, 0] false []).strip.closed = true →
          attachedTo (ROADSTRIP.ReadFrom lineWorld emptyStrip
            [3, 0, 5, 5, 9, 9, 0] false []).strip.patches
            ((ROADSTRIP.ReadFrom lineWorld emptyStrip
              [3, 0, 5, 5, 9, 9, 0] false []).strip.patches.length - 1) 0) :=
  readFrom_chain lineWorld emptyStrip [3, 0, 5, 5, 9, 9, 0] false [] (by decide)

/-- C5 (hint short-circuit).  When the hint `h` is a slot of the strip and the patch
in it collides with the ray at `pt` with normal `n`, `Collide` returns `true` with
that point, that normal and that patch, and leaves the hint equal to `h`; the
result is the same whatever the spatial index holds and whatever its query
answers, so no other patch, closer or not, is looked at. -/
theorem collide_hint_short_circuit (ops : Collaborators G V L D B S) (self : ROADSTRIP G B)
    (origin direction : V) (seglen : L) (refs : CollideRefs V) (h : Nat)
    (p : ROADPATCH G) (pt n : V)
    (hid : refs.patch_id = (h : Int)) (hp : self.patches[h]? = some p)
    (hit : ops.Collide p.patch.geom origin direction seglen = some (pt, n)) :
    ∀ (query : List (Nat × B) → V → V → L → List Nat) (index : List (Nat × B)),
      ROADSTRIP.Collide { ops with Query := query } { self with aabb_part := index }
          origin direction seglen refs
        = .ok (true, { patch_id := (h : Int), outtri := pt, colpatch := some h,
                       normal := n }) := by
  intro query index
  rw [Collide_eq]
  have hh : hintHit { ops with Query := query } { self with aabb_part := index }
      origin direction seglen refs.patch_id = some (pt, n) := by
    simp [hintHit, hitOf, hid, hp, hit]
  rw [hh]
  simp [hid]

/-- Witness of C5: two patches on a line, from 5 to 6 and from 2 to 3, and a ray
from 0 towards them.  With the hint on the first patch the hit is at 5, although
the second patch is hit at 2. -/
theorem collide_hint_short_circuit_witness :
    ROADSTRIP.Collide lineWorld
        (ROADSTRIP.ReadFrom lineWorld emptyStrip [2, 5, 6, 2, 3] false []).strip
        0 1 10 { patch_id := 0, outtri := 0, colpatch := none, normal := 0 }
      = .ok (true, { patch_id := 0, outtri := 5, colpatch := some 0, normal := 1 })
    ∧ hitOf lineWorld (ROADSTRIP.ReadFrom lineWorld emptyStrip [2, 5, 6, 2, 3] false []).strip
        0 1 10 1 = some (2, 1) :=
  ⟨collide_hint_short_circuit lineWorld
      (ROADSTRIP.ReadFrom lineWorld emptyStrip [2, 5, 6, 2, 3] false []).strip
      0 1 10 { patch_id := 0, outtri := 0, colpatch := none, normal := 0 } 0
      { patch := { geom := (5, 6), next_patch := some 1 } } 5 1 rfl (by decide) (by decide)
      lineWorld.Query
      (ROADSTRIP.ReadFrom lineWorld emptyStrip [2, 5, 6, 2, 3] false []).strip.aabb_part,
   by decide⟩

/-- C8 (a miss leaves the hint unchanged).  When the hinted patch reports no collision
(or the hint is not a slot of the strip) and every candidate of the spatial index
is a patch of the strip that reports no collision, `Collide` returns `false` and
the hint, like the other reference parameters, has the value it had on entry. -/
theorem collide_miss_keeps_hint (ops : Collaborators G V L D B S) (self : ROADSTRIP G B)
    (origin direction : V) (seglen : L) (refs : CollideRefs V)
    (hhint : hintHit ops self origin direction seglen refs.patch_id = none)
    (hcands : ∀ c ∈ ops.Query self.aabb_part origin direction seglen,
      ∃ p, self.patches[c]? = some p
        ∧ ops.Collide p.patch.geom origin direction seglen = none) :
    ROADSTRIP.Collide ops self origin direction seglen refs = .ok (false, refs) := by
  rw [Collide_eq, hhint]
  refine collideCandidates_miss ops self origin direction seglen _ _ ?_ ?_
  · intro c hc
    obtain ⟨p, hp, _⟩ := hcands c hc
    by_contra hlt
    rw [List.getElem?_eq_none (not_lt.mp hlt)] at hp
    cases hp
  · intro c hc
    obtain ⟨p, hp, hm⟩ := hcands c hc
    simp [hitOf, hp, hm]

/-- Witness of C8: a ray that points away from the three patches of a line strip,
with the hint on the second patch. -/
theorem collide_miss_keeps_hint_witness :
    ROADSTRIP.Collide lineWorld
        (ROADSTRIP.ReadFrom lineWorld emptyStrip [3, 0, 5, 5, 9, 9, 12] false []).strip
        (-3) (-1) 10 { patch_id := 1, outtri := 0, colpatch := none, normal := 0 }
      = .ok (false, { patch_id := 1, outtri := 0, colpatch := none, normal := 0 }) :=
  collide_miss_keeps_hint lineWorld
    (ROADSTRIP.ReadFrom lineWorld emptyStrip [3, 0, 5, 5, 9, 9, 12] false []).strip
    (-3) (-1) 10 { patch_id := 1, outtri := 0, colpatch := none, normal := 0 }
    (by decide) (by decide)

/-- C10 (diagnostics line).  For every source, with `K` the number of declared records
that fail validation, `ReadFrom` appends to `error_output` exactly the one line
`Rejected K bezier patch(es) from roadstrip due to errors` when `K > 0`, and leaves
`error_output` as it was when `K = 0`. -/
theorem readFrom_diagnostics (ops : Collaborators G V L D B S) (self : ROADSTRIP G B)
    (openfile : S) (reverse : Bool) (error_output : List String) :
    (0 < rejected ops (records ops (ops.readInt openfile).1.toNat (ops.readInt openfile).2) →
        (ROADSTRIP.ReadFrom ops self openfile reverse error_output).error_output
          = error_output ++
            ["Rejected "
              ++ toString (rejected ops
                  (records ops (ops.readInt openfile).1.toNat (ops.readInt openfile).2))
              ++ " bezier patch(es) from roadstrip due to errors"])
      ∧ (rejected ops (records ops (ops.readInt openfile).1.toNat (ops.readInt openfile).2) = 0 →
        (ROADSTRIP.ReadFrom ops self openfile reverse error_output).error_output
          = error_output) := by
  by_cases h : 0 ≤ (ops.readInt openfile).1
  · rw [ReadFrom_output ops self openfile reverse error_output h]
    constructor
    · intro hk; simp [report, hk]
    · intro hk; simp [report, hk]
  · have hneg : (ops.readInt openfile).1 < 0 := not_le.mp h
    rw [ReadFrom_negative ops self openfile reverse error_output hneg]
    have : (ops.readInt openfile).1.toNat = 0 := Int.toNat_eq_zero.mpr (le_of_lt hneg)
    simp [this, records, rejected]

/-- C7 (collision completeness).  When every candidate of the spatial index is a slot
of the strip, the index leaves out no slot whose patch the ray hits, and the ray
hits the patch in slot `i` and no other, `Collide` returns `true` with the hit on
that patch and sets the hint to `i`, whatever the reference parameters, the hint
among them, held on entry. -/
theorem collide_complete (ops : Collaborators G V L D B S) (self : ROADSTRIP G B)
    (origin direction : V) (seglen : L) (i : Nat) (pt n : V)
    (hvalid : ∀ c ∈ ops.Query self.aabb_part origin direction seglen,
      c < self.patches.length)
    (hcomplete : ∀ j, hitOf ops self origin direction seglen j ≠ none →
      j ∈ ops.Query self.aabb_part origin direction seglen)
    (hhit : hitOf ops self origin direction seglen i = some (pt, n))
    (huniq : ∀ j, hitOf ops self origin direction seglen j ≠ none → j = i) :
    ∀ refs : CollideRefs V,
      ROADSTRIP.Collide ops self origin direction seglen refs
        = .ok (true, { patch_id := (i : Int), outtri := pt, colpatch := some i,
                       normal := n }) := by
  intro refs
  rw [Collide_eq]
  cases hh : hintHit ops self origin direction seglen refs.patch_id with
  | none =>
    exact collideCandidates_unique ops self origin direction seglen _ i (pt, n) refs hvalid
      (hcomplete i (by rw [hhit]; simp)) hhit huniq
  | some h =>
    unfold hintHit at hh
    by_cases h0 : 0 ≤ refs.patch_id
    · rw [if_pos h0] at hh
      have hi : refs.patch_id.toNat = i := huniq _ (by rw [hh]; simp)
      rw [hi, hhit] at hh
      cases hh
      have hid : refs.patch_id = (i : Int) := by omega
      simp [hi, hid]
    · rw [if_neg h0] at hh
      cases hh

/-- Witness of C7: four patches in a row on a line and a ray that reaches the third
only; with no hint, the hit is on slot 2 and the hint becomes 2. -/
theorem collide_complete_witness :
    ROADSTRIP.Collide lineWorld
        (ROADSTRIP.ReadFrom lineWorld emptyStrip [4, 0, 3, 4, 7, 8, 11, 12, 15] false []).strip
        9 1 1 { patch_id := -1, outtri := 0, colpatch := none, normal := 0 }
      = .ok (true, { patch_id := 2, outtri := 9, colpatch := some 2, normal := 1 }) :=
  collide_complete lineWorld
    (ROADSTRIP.ReadFrom lineWorld emptyStrip [4, 0, 3, 4, 7, 8, 11, 12, 15] false []).strip
    9 1 1 2 9 1 (by decide)
    (fun j hj => by rw [rowStrip_hit_only_third j hj]; decide)
    (by decide) rowStrip_hit_only_third
    { patch_id := -1, outtri := 0, colpatch := none, normal := 0 }

/-- C9 (an invalid hint is no hint).  For a hint that is negative or not below the
length of the sequence, `Collide` is the fallback search alone; for two such hints
and the same other reference parameters the two calls stop on the same fault or
return the same flag, hit point, normal and patch, the same hint when the flag is
`true`, and each its own hint unchanged when the flag is `false`. -/
theorem collide_invalid_hint (ops : Collaborators G V L D B S) (self : ROADSTRIP G B)
    (origin direction : V) (seglen : L) (refs : CollideRefs V) (h1 h2 : Int)
    (hv1 : h1 < 0 ∨ (self.patches.length : Int) ≤ h1)
    (hv2 : h2 < 0 ∨ (self.patches.length : Int) ≤ h2) :
    ROADSTRIP.Collide ops self origin direction seglen { refs with patch_id := h1 }
        = fallbackSearch ops self origin direction seglen { refs with patch_id := h1 }
      ∧ match ROADSTRIP.Collide ops self origin direction seglen { refs with patch_id := h1 },
          ROADSTRIP.Collide ops self origin direction seglen { refs with patch_id := h2 } with
        | .ok a, .ok b =>
          a.1 = b.1 ∧ a.2.outtri = b.2.outtri ∧ a.2.normal = b.2.normal
            ∧ a.2.colpatch = b.2.colpatch ∧ (a.1 = true → a.2.patch_id = b.2.patch_id)
            ∧ (a.1 = false → a.2.patch_id = h1 ∧ b.2.patch_id = h2)
        | .error f, .error g => f = g
        | _, _ => False := by
  have e1 : ROADSTRIP.Collide ops self origin direction seglen { refs with patch_id := h1 }
      = fallbackSearch ops self origin direction seglen { refs with patch_id := h1 } := by
    rw [Collide_eq, hintHit_invalid ops self origin direction seglen _ hv1]
  have e2 : ROADSTRIP.Collide ops self origin direction seglen { refs with patch_id := h2 }
      = fallbackSearch ops self origin direction seglen { refs with patch_id := h2 } := by
    rw [Collide_eq, hintHit_invalid ops self origin direction seglen _ hv2]
  refine ⟨e1, ?_⟩
  rw [e1, e2]
  unfold fallbackSearch
  have hsame := collideCandidates_same ops self origin direction seglen
    (ops.Query self.aabb_part origin direction seglen)
    (false, { refs with patch_id := h1 }) (false, { refs with patch_id := h2 })
    ⟨rfl, rfl, rfl, rfl, fun h => by cases h⟩
  cases ha : collideCandidates ops self origin direction seglen
      (ops.Query self.aabb_part origin direction seglen)
      (false, { refs with patch_id := h1 }) with
  | error f =>
    cases hb : collideCandidates ops self origin direction seglen
        (ops.Query self.aabb_part origin direction seglen)
        (false, { refs with patch_id := h2 }) with
    | error g => rw [ha, hb] at hsame; simpa using hsame
    | ok b => rw [ha, hb] at hsame; exact hsame.elim
  | ok a =>
    cases hb : collideCandidates ops self origin direction seglen
        (ops.Query self.aabb_part origin direction seglen)
        (false, { refs with patch_id := h2 }) with
    | error g => rw [ha, hb] at hsame; exact hsame.elim
    | ok b =>
      rw [ha, hb] at hsame
      obtain ⟨s1, s2, s3, s4, s5⟩ := hsame
      refine ⟨s1, s2, s3, s4, s5, fun hf => ?_⟩
      obtain ⟨a1, a2⟩ := a
      obtain ⟨b1, b2⟩ := b
      simp only at hf s1
      subst hf
      subst s1
      have ka := collideCandidates_false ops self origin direction seglen _ _ _ ha
      have kb := collideCandidates_false ops self origin direction seglen _ _ _ hb
      simp only [Prod.mk.injEq, true_and] at ka kb
      subst ka
      subst kb
      exact ⟨rfl, rfl⟩

/-- Witness of C9: on a strip of three patches, the hints -1 and 7 name no slot. -/
theorem collide_invalid_hint_witness :
    ROADSTRIP.Collide lineWorld
        (ROADSTRIP.ReadFrom lineWorld emptyStrip [3, 0, 5, 5, 9, 9, 12] false []).strip
        (-3) 1 10 { patch_id := -1, outtri := 0, colpatch := none, normal := 0 }
      = fallbackSearch lineWorld
        (ROADSTRIP.ReadFrom lineWorld emptyStrip [3, 0, 5, 5, 9, 9, 12] false []).strip
        (-3) 1 10 { patch_id := -1, outtri := 0, colpatch := none, normal := 0 } :=
  (collide_invalid_hint lineWorld
    (ROADSTRIP.ReadFrom lineWorld emptyStrip [3, 0, 5, 5, 9, 9, 12] false []).strip
    (-3) 1 10 { patch_id := 0, outtri := 0, colpatch := none, normal := 0 } (-1) 7
    (by decide) (by decide)).1

end Claims

section NearestClaim

variable {G V L D B S : Type} [LinearOrder D]

/-- C6 (nearest-hit selection).  When the hinted patch reports no collision (or the
hint is not a slot of the strip), every candidate of the spatial index is a slot of
the strip and some candidate is hit, `Collide` returns `true` with the hit point,
the normal and the patch of the first candidate, in the order of the candidates,
whose hit attains the least squared distance from `origin` among the candidates that
are hit, and sets the hint to its slot.  The squared distances are compared in a
linear order. -/
theorem collide_nearest (ops : Collaborators G V L D B S) (self : ROADSTRIP G B)
    (origin direction : V) (seglen : L) (refs : CollideRefs V)
    (hhint : hintHit ops self origin direction seglen refs.patch_id = none)
    (hvalid : ∀ c ∈ ops.Query self.aabb_part origin direction seglen,
      c < self.patches.length)
    (hsome : ∃ c ∈ ops.Query self.aabb_part origin direction seglen,
      hitOf ops self origin direction seglen c ≠ none) :
    ∃ k c h,
      nearestFirst ops self origin direction seglen
          (ops.Query self.aabb_part origin direction seglen) k c h
        ∧ ROADSTRIP.Collide ops self origin direction seglen refs
          = .ok (true, { patch_id := (c : Int), outtri := h.1, colpatch := some c,
                         normal := h.2 }) := by
  rw [Collide_eq, hhint]
  exact collideCandidates_nearest ops self origin direction seglen _ refs hvalid hsome

/-- Witness of C6: four patches on a line, hit at 5, 2, 2 and 8 by a ray from 0; the
second patch is selected, and the third, hit at the same distance, does not
replace it. -/
theorem collide_nearest_witness :
    (∃ k c h,
      nearestFirst lineWorld
          (ROADSTRIP.ReadFrom lineWorld emptyStrip [4, 5, 6, 2, 3, 2, 4, 8, 9] false []).strip
          0 1 10
          (lineWorld.Query
            (ROADSTRIP.ReadFrom lineWorld emptyStrip
              [4, 5, 6, 2, 3, 2, 4, 8, 9] false []).strip.aabb_part 0 1 10) k c h
        ∧ ROADSTRIP.Collide lineWorld
            (ROADSTRIP.ReadFrom lineWorld emptyStrip [4, 5, 6, 2, 3, 2, 4, 8, 9] false []).strip
            0 1 10 { patch_id := -1, outtri := 0, colpatch := none, normal := 0 }
          = .ok (true, { patch_id := (c : Int), outtri := h.1, colpatch := some c,
                         normal := h.2 }))
      ∧ ROADSTRIP.Collide lineWorld
          (ROADSTRIP.ReadFrom lineWorld emptyStrip [4, 5, 6, 2, 3, 2, 4, 8, 9] false []).strip
          0 1 10 { patch_id := -1, outtri := 0, colpatch := none, normal := 0 }
        = .ok (true, { patch_id := 1, outtri := 2, colpatch := some 1, normal := 1 }) :=
  ⟨collide_nearest lineWorld
      (ROADSTRIP.ReadFrom lineWorld emptyStrip [4, 5, 6, 2, 3, 2, 4, 8, 9] false []).strip
      0 1 10 { patch_id := -1, outtri := 0, colpatch := none, normal := 0 }
      (by decide) (by decide) (by decide),
   rfl⟩

end NearestClaim

section AttachLemmas

variable {G V L D B S : Type}

/-- The read loop keeps only patches that pass validation. -/
theorem readStep_valid (ops : Collaborators G V L D B S) (st : ReadState G S)
    (h : ∀ g ∈ geoms st.patches, ops.CheckForProblems g = false) :
    ∀ g ∈ geoms (readStep ops st).patches, ops.CheckForProblems g = false := by
  intro g hg
  rw [(readStep_spec ops st).1, List.mem_append] at hg
  rcases hg with hg | hg
  · exact h g hg
  · simpa [accepted] using (List.mem_filter.mp hg).2

/-- The source of every call of `Attach` in the read loop passes validation. -/
theorem readLoopCalls_source (ops : Collaborators G V L D B S) (n : Nat) (st : ReadState G S)
    (h : ∀ g ∈ geoms st.patches, ops.CheckForProblems g = false) :
    ∀ c ∈ readLoopCalls ops n st, ops.CheckForProblems c.1 = false := by
  induction n generalizing st with
  | zero => intro c hc; simp [readLoopCalls] at hc
  | succ n ih =>
    intro c hc
    simp only [readLoopCalls, List.mem_append] at hc
    rcases hc with hc | hc
    · unfold readStepCall at hc
      cases hl : st.patches.getLast? with
      | none => simp [hl] at hc
      | some prev =>
        simp only [hl, Option.toList, List.mem_singleton] at hc
        subst hc
        refine h _ ?_
        have := List.mem_of_getLast?_eq_some hl
        exact List.mem_map_of_mem _ this
    · exact ih (readStep ops st) (readStep_valid ops st h) c hc

/-- The connecting loop attaches patches of the sequence to patches of the
sequence. -/
theorem connectCalls_mem (ps : List (ROADPATCH G)) :
    ∀ c ∈ connectCalls ps, c.1 ∈ geoms ps ∧ c.2 ∈ geoms ps := by
  induction ps with
  | nil => intro c hc; simp [connectCalls] at hc
  | cons p ps ih =>
    cases ps with
    | nil => intro c hc; simp [connectCalls] at hc
    | cons q rest =>
      intro c hc
      simp only [connectCalls, List.mem_cons] at hc
      rcases hc with hc | hc
      · subst hc; simp [geoms]
      · obtain ⟨h1, h2⟩ := ih c hc
        exact ⟨List.mem_cons_of_mem _ h1, List.mem_cons_of_mem _ h2⟩

theorem ringCall_mem (closed : Bool) (ps : List (ROADPATCH G)) :
    ∀ c ∈ ringCall closed ps, c.1 ∈ geoms ps ∧ c.2 ∈ geoms ps := by
  intro c hc
  unfold ringCall at hc
  cases closed with
  | false => simp at hc
  | true =>
    cases hl : ps.getLast? with
    | none => simp [hl] at hc
    | some back =>
      cases hf : ps.head? with
      | none => simp [hl, hf] at hc
      | some front =>
        simp only [hl, hf, if_true, List.mem_singleton] at hc
        subst hc
        exact ⟨List.mem_map_of_mem _ (List.mem_of_getLast?_eq_some hl),
          List.mem_map_of_mem _ (List.mem_of_mem_head? hf)⟩

theorem length_entriesFrom (ops : Collaborators G V L D B S) (k : Nat)
    (ps : List (ROADPATCH G)) : (entriesFrom ops k ps).length = ps.length := by
  induction ps generalizing k with
  | nil => rfl
  | cons p ps ih => simp [entriesFrom, ih]

/-- The entry added for slot `i` is the slot number with the box of the patch in
it. -/
theorem entriesFrom_getElem? (ops : Collaborators G V L D B S) (k i : Nat)
    (ps : List (ROADPATCH G)) :
    (entriesFrom ops k ps)[i]? = (ps[i]?).map fun p => (k + i, ops.GetAABB p.patch.geom) := by
  induction ps generalizing k i with
  | nil => simp [entriesFrom]
  | cons p ps ih =>
    cases i with
    | zero => simp [entriesFrom]
    | succ i =>
      simp only [entriesFrom, List.getElem?_cons_succ, ih]
      congr 1
      funext q
      congr 1
      omega

/-- The calls of the racing-line loop from slot `i` on. -/
theorem racingLineFrom_eq (i : Nat) (ps : List (ROADPATCH G)) :
    racingLineFrom i ps
      = (List.range ps.length).map fun j =>
          (i + j, if j + 1 < ps.length then i + j + 1 else 0) := by
  induction ps generalizing i with
  | nil => rfl
  | cons p ps ih =>
    cases ps with
    | nil => simp [racingLineFrom, List.range_succ]
    | cons q rest =>
      have hr : List.range (p :: q :: rest).length
          = 0 :: (List.range (q :: rest).length).map Nat.succ := by
        simp [List.range_succ_eq_map]
      rw [racingLineFrom, ih (i + 1), hr, List.map_cons, List.map_map]
      congr 1
      · simp
      · apply List.map_congr_left
        intro j _
        simp only [Function.comp, List.length_cons, Prod.mk.injEq]
        refine ⟨by omega, ?_⟩
        by_cases h : j + 1 < rest.length + 1
        · rw [if_pos h, if_pos (by omega)]; omega
        · rw [if_neg h, if_neg (by omega)]

end AttachLemmas

section BuildResultLemmas

variable {G V L D B S : Type} [LT D] [∀ a b : D, Decidable (a < b)]

/-- A call returns `true` exactly when the declared count is not negative and some
patch is kept. -/
theorem ReadFrom_ret_ok (ops : Collaborators G V L D B S) (self : ROADSTRIP G B)
    (openfile : S) (reverse : Bool) (error_output : List String)
    (hret : (ROADSTRIP.ReadFrom ops self openfile reverse error_output).ret = .ok true) :
    0 ≤ (ops.readInt openfile).1 ∧ readPatches ops openfile reverse ≠ [] := by
  by_cases h : 0 ≤ (ops.readInt openfile).1
  · refine ⟨h, fun he => ?_⟩
    rw [ReadFrom_empty ops self openfile reverse error_output h he] at hret
    cases hret
  · rw [ReadFrom_negative ops self openfile reverse error_output (not_le.mp h)] at hret
    cases hret

/-- The sequence a returning call leaves: the sequence at the closure test, chained,
with the last patch attached to the first when it closes up. -/
theorem ReadFrom_patches (ops : Collaborators G V L D B S) (self : ROADSTRIP G B)
    (openfile : S) (reverse : Bool) (error_output : List String)
    (h : 0 ≤ (ops.readInt openfile).1) (hne : readPatches ops openfile reverse ≠ []) :
    (ROADSTRIP.ReadFrom ops self openfile reverse error_output).strip.patches
      = if closureTest ops (readPatches ops openfile reverse) then
          attachAt (chainFrom 0 (readPatches ops openfile reverse))
            ((chainFrom 0 (readPatches ops openfile reverse)).length - 1) 0
        else chainFrom 0 (readPatches ops openfile reverse) := by
  rw [ReadFrom_nonempty ops self openfile reverse error_output h hne]
  rfl

/-- In the sequence a call leaves, the patch in every slot but the last is attached
to the next slot. -/
theorem ReadFrom_links (ops : Collaborators G V L D B S) (self : ROADSTRIP G B)
    (openfile : S) (reverse : Bool) (error_output : List String) (i : Nat)
    (hi : i + 1
      < (ROADSTRIP.ReadFrom ops self openfile reverse error_output).strip.patches.length) :
    attachedTo (ROADSTRIP.ReadFrom ops self openfile reverse error_output).strip.patches
      i (i + 1) := by
  have hnum : 0 ≤ (ops.readInt openfile).1 := by
    by_contra hc
    rw [ReadFrom_negative ops self openfile reverse error_output (not_le.mp hc)] at hi
    simp at hi
  have hps : readPatches ops openfile reverse ≠ [] := by
    intro he
    rw [ReadFrom_empty ops self openfile reverse error_output hnum he] at hi
    simp at hi
  rw [ReadFrom_patches ops self openfile reverse error_output hnum hps] at hi ⊢
  cases hc : closureTest ops (readPatches ops openfile reverse)
  · simp only [hc, Bool.false_eq_true, if_false, length_chainFrom] at hi ⊢
    simpa using chainFrom_attached 0 i _ hi
  · simp only [hc, if_true, length_attachAt, length_chainFrom] at hi ⊢
    obtain ⟨p, hp, hn⟩ := chainFrom_attached 0 i _ hi
    refine ⟨p, ?_, by simpa using hn⟩
    rw [attachAt_getElem?_ne _ _ _ _ (by omega)]
    exact hp

/-- The geometries of the sequence a call leaves, in terms of the records of the
source. -/
theorem ReadFrom_geoms_records (ops : Collaborators G V L D B S) (self : ROADSTRIP G B)
    (openfile : S) (reverse : Bool) (error_output : List String) :
    geoms (ROADSTRIP.ReadFrom ops self openfile reverse error_output).strip.patches
      = if reverse then
          reversedGeoms ops (accepted ops
            (records ops (ops.readInt openfile).1.toNat (ops.readInt openfile).2))
        else accepted ops
          (records ops (ops.readInt openfile).1.toNat (ops.readInt openfile).2) := by
  by_cases h : 0 ≤ (ops.readInt openfile).1
  · rw [ReadFrom_geoms ops self openfile reverse error_output h]
    cases reverse
    · simpa using geoms_readPatches_forward ops openfile
    · simpa [reversedGeoms] using geoms_readPatches_reverse ops openfile
  · have hneg : (ops.readInt openfile).1 < 0 := not_le.mp h
    rw [ReadFrom_negative ops self openfile reverse error_output hneg]
    have : (ops.readInt openfile).1.toNat = 0 := Int.toNat_eq_zero.mpr (le_of_lt hneg)
    cases reverse <;> simp [this, records, accepted, geoms, reversedGeoms]

/-- The index a returning call leaves is the one generated from the sequence it
leaves. -/
theorem ReadFrom_index_of_ok (ops : Collaborators G V L D B S) (self : ROADSTRIP G B)
    (openfile : S) (reverse : Bool) (error_output : List String)
    (hret : (ROADSTRIP.ReadFrom ops self openfile reverse error_output).ret = .ok true) :
    (ROADSTRIP.ReadFrom ops self openfile reverse error_output).strip.aabb_part
      = entriesFrom ops 0
          (ROADSTRIP.ReadFrom ops self openfile reverse error_output).strip.patches := by
  obtain ⟨h, hne⟩ := ReadFrom_ret_ok ops self openfile reverse error_output hret
  rw [ReadFrom_nonempty ops self openfile reverse error_output h hne]
  rfl

end BuildResultLemmas

section Claims2

variable {G V L D B S : Type} [LT D] [∀ a b : D, Decidable (a < b)]

/-- C11, as the code behaves (amended).  In every build, the source of each call of
`Attach` in the read loop passes validation; source and target of each call of
`Attach` in the final attachment pass are patches of the final sequence; the final
sequence is made of the records that pass validation (turned around and in reverse
order when `reverse` is set); and every patch of the final sequence but the last
has the patch in the next slot of the final sequence as its attached successor.
The target of a call of the read loop is the patch just read, which is validated
only after the call. -/
theorem readFrom_attach_endpoints (ops : Collaborators G V L D B S) (self : ROADSTRIP G B)
    (openfile : S) (reverse : Bool) (error_output : List String) :
    (∀ c ∈ readCalls ops openfile, ops.CheckForProblems c.1 = false)
      ∧ (∀ c ∈ finalCalls ops openfile reverse,
          c.1 ∈ geoms (ROADSTRIP.ReadFrom ops self openfile reverse error_output).strip.patches
          ∧ c.2 ∈ geoms
              (ROADSTRIP.ReadFrom ops self openfile reverse error_output).strip.patches)
      ∧ geoms (ROADSTRIP.ReadFrom ops self openfile reverse error_output).strip.patches
          = (if reverse then
              reversedGeoms ops (accepted ops
                (records ops (ops.readInt openfile).1.toNat (ops.readInt openfile).2))
            else accepted ops
              (records ops (ops.readInt openfile).1.toNat (ops.readInt openfile).2))
      ∧ (∀ i, i + 1
            < (ROADSTRIP.ReadFrom ops self openfile reverse error_output).strip.patches.length →
          attachedTo (ROADSTRIP.ReadFrom ops self openfile reverse error_output).strip.patches
            i (i + 1)) := by
  refine ⟨?_, ?_, ReadFrom_geoms_records ops self openfile reverse error_output,
    fun i hi => ReadFrom_links ops self openfile reverse error_output i hi⟩
  · exact readLoopCalls_source ops _ _ (by intro g hg; simp [geoms] at hg)
  · intro c hc
    unfold finalCalls at hc
    by_cases h : 0 ≤ (ops.readInt openfile).1
    · rw [if_neg (not_lt.mpr h), List.mem_append] at hc
      rw [ReadFrom_geoms ops self openfile reverse error_output h]
      rcases hc with hc | hc
      · exact connectCalls_mem _ c hc
      · exact ringCall_mem _ _ c hc
    · rw [if_pos (not_le.mp h)] at hc
      simp at hc

/-- Counterexample to C11 as stated: the source declares two patches, from 0 to 5 and
a malformed one from 3 to 3.  The read loop attaches the first patch to the second
before the second is rejected, and the one patch of the final sequence keeps slot 1,
the slot the rejected patch was in, as its attached successor. -/
theorem rejected_patch_is_attach_target :
    (((0, 5), (3, 3)) : (Int × Int) × (Int × Int)) ∈ readCalls lineWorld [2, 0, 5, 3, 3]
      ∧ lineWorld.CheckForProblems (3, 3) = true
      ∧ (ROADSTRIP.ReadFrom lineWorld emptyStrip [2, 0, 5, 3, 3] false []).strip.patches
        = [{ patch := { geom := (0, 5), next_patch := some 1 } }] := by
  decide

/-- C12 (index validity).  After every call of `ReadFrom` that returns, the spatial
index holds as many entries as the sequence has patches, the entry in place `i` is
exactly the slot number `i` with the bounding box of the patch in slot `i`,
whatever the index held before, and every id in the index is a slot of the
sequence. -/
theorem readFrom_index_entries (ops : Collaborators G V L D B S) (self : ROADSTRIP G B)
    (openfile : S) (reverse : Bool) (error_output : List String)
    (hret : (ROADSTRIP.ReadFrom ops self openfile reverse error_output).ret = .ok true) :
    (ROADSTRIP.ReadFrom ops self openfile reverse error_output).strip.aabb_part.length
        = (ROADSTRIP.ReadFrom ops self openfile reverse error_output).strip.patches.length
      ∧ (∀ (i : Nat) (e : Nat × B),
          (ROADSTRIP.ReadFrom ops self openfile reverse error_output).strip.aabb_part[i]? = some e
            ↔ ∃ p, (ROADSTRIP.ReadFrom ops self openfile reverse error_output).strip.patches[i]?
                = some p ∧ e = (i, ops.GetAABB p.patch.geom))
      ∧ (∀ e ∈ (ROADSTRIP.ReadFrom ops self openfile reverse error_output).strip.aabb_part,
          e.1 < (ROADSTRIP.ReadFrom ops self openfile reverse error_output).strip.patches.length)
    := by
  have hidx := ReadFrom_index_of_ok ops self openfile reverse error_output hret
  have hget : ∀ (i : Nat) (e : Nat × B),
      (ROADSTRIP.ReadFrom ops self openfile reverse error_output).strip.aabb_part[i]? = some e
        ↔ ∃ p, (ROADSTRIP.ReadFrom ops self openfile reverse error_output).strip.patches[i]?
            = some p ∧ e = (i, ops.GetAABB p.patch.geom) := by
    intro i e
    rw [hidx, entriesFrom_getElem?]
    cases (ROADSTRIP.ReadFrom ops self openfile reverse error_output).strip.patches[i]? with
    | none => simp
    | some p => simp [eq_comm]
  refine ⟨by rw [hidx, length_entriesFrom], hget, ?_⟩
  intro e he
  obtain ⟨i, hi, hie⟩ := List.getElem_of_mem he
  have h1 : (ROADSTRIP.ReadFrom ops self openfile reverse error_output).strip.aabb_part[i]?
      = some e := by rw [List.getElem?_eq_getElem hi, hie]
  obtain ⟨p, hp, hep⟩ := (hget i e).mp h1
  rw [hep]
  by_contra hlt
  rw [List.getElem?_eq_none (not_lt.mp hlt)] at hp
  cases hp

/-- Witness of C12: a strip of three patches built over a strip whose index held a
stray entry. -/
theorem readFrom_index_entries_witness :
    (ROADSTRIP.ReadFrom lineWorld { patches := [], closed := true, aabb_part := [(7, (1, 1))] }
        [3, 0, 5, 5, 9, 9, 12] false []).strip.aabb_part
      = [(0, (0, 5)), (1, (5, 9)), (2, (9, 12))]
    ∧ ∀ e ∈ (ROADSTRIP.ReadFrom lineWorld
          { patches := [], closed := true, aabb_part := [(7, (1, 1))] }
          [3, 0, 5, 5, 9, 9, 12] false []).strip.aabb_part,
        e.1 < (ROADSTRIP.ReadFrom lineWorld
          { patches := [], closed := true, aabb_part := [(7, (1, 1))] }
          [3, 0, 5, 5, 9, 9, 12] false []).strip.patches.length :=
  ⟨by decide,
   (readFrom_index_entries lineWorld { patches := [], closed := true, aabb_part := [(7, (1, 1))] }
      [3, 0, 5, 5, 9, 9, 12] false [] rfl).2.2⟩

/-- C16 (reversed build order).  For every source, `ReadFrom` with `reverse = true`
leaves the records that pass validation in the reverse of source order, each turned
around once; the closure test is made on this order (for a count that is not
negative); every patch but the last is attached to the next slot of this order;
and when the call returns the index is keyed by the slots of this order. -/
theorem readFrom_reversed_order (ops : Collaborators G V L D B S) (self : ROADSTRIP G B)
    (openfile : S) (error_output : List String) :
    geoms (ROADSTRIP.ReadFrom ops self openfile true error_output).strip.patches
        = reversedGeoms ops (accepted ops
            (records ops (ops.readInt openfile).1.toNat (ops.readInt openfile).2))
      ∧ (0 ≤ (ops.readInt openfile).1 →
          ((ROADSTRIP.ReadFrom ops self openfile true error_output).strip.closed = true
            ↔ closesUp ops (reversedGeoms ops (accepted ops
                (records ops (ops.readInt openfile).1.toNat (ops.readInt openfile).2)))))
      ∧ (∀ i, i + 1
            < (ROADSTRIP.ReadFrom ops self openfile true error_output).strip.patches.length →
          attachedTo (ROADSTRIP.ReadFrom ops self openfile true error_output).strip.patches
            i (i + 1))
      ∧ ((ROADSTRIP.ReadFrom ops self openfile true error_output).ret = .ok true →
          (ROADSTRIP.ReadFrom ops self openfile true error_output).strip.aabb_part
            = entriesFrom ops 0
                (ROADSTRIP.ReadFrom ops self openfile true error_output).strip.patches) := by
  have hg := ReadFrom_geoms_records ops self openfile true error_output
  simp only [if_true] at hg
  refine ⟨hg, fun hnum => ?_,
    fun i hi => ReadFrom_links ops self openfile true error_output i hi,
    fun hret => ReadFrom_index_of_ok ops self openfile true error_output hret⟩
  rw [ReadFrom_closed ops self openfile true error_output hnum, closureTest_iff,
    ← ReadFrom_geoms ops self openfile true error_output hnum, hg]

/-- C18 (racing-line walk).  For a strip of `n` patches, `CreateRacingLine` hands over
exactly the `n` pairs of patch `i` with patch `(i + 1) mod n`, for `i` from 0 in
order, whatever the value of `closed`: nothing for an empty strip, and the one patch
with itself for a strip of one patch. -/
theorem createRacingLine_pairs (self : ROADSTRIP G B) :
    (∀ closed : Bool,
        ROADSTRIP.CreateRacingLine { self with closed := closed }
          = (List.range self.patches.length).map fun i => (i, (i + 1) % self.patches.length))
      ∧ (ROADSTRIP.CreateRacingLine self).length = self.patches.length
      ∧ (self.patches = [] → ROADSTRIP.CreateRacingLine self = [])
      ∧ (∀ p, self.patches = [p] → ROADSTRIP.CreateRacingLine self = [(0, 0)]) := by
  have h1 : ∀ closed : Bool,
      ROADSTRIP.CreateRacingLine { self with closed := closed }
        = (List.range self.patches.length).map
            fun i => (i, (i + 1) % self.patches.length) := by
    intro closed
    simp only [ROADSTRIP.CreateRacingLine, racingLineFrom_eq]
    apply List.map_congr_left
    intro j hj
    have hlt : j < self.patches.length := List.mem_range.mp hj
    simp only [Nat.zero_add, Prod.mk.injEq, true_and]
    by_cases h : j + 1 < self.patches.length
    · rw [if_pos h, Nat.mod_eq_of_lt h]
    · rw [if_neg h, show j + 1 = self.patches.length from by omega, Nat.mod_self]
  refine ⟨h1, ?_, ?_, ?_⟩
  · simp [ROADSTRIP.CreateRacingLine, racingLineFrom_eq]
  · intro he; simp [ROADSTRIP.CreateRacingLine, he, racingLineFrom]
  · intro p hp; simp [ROADSTRIP.CreateRacingLine, hp, racingLineFrom]

/-- C19 (a build replaces prior content).  For any two prior states of a strip, the
two calls of `ReadFrom` on the same source with the same `reverse` end the same
way, leave the same patch sequence, the same stream and the same diagnostics, and,
when they return, the same strip: the same sequence, `closed` and index. -/
theorem readFrom_replaces_prior (ops : Collaborators G V L D B S) (self1 self2 : ROADSTRIP G B)
    (openfile : S) (reverse : Bool) (error_output : List String) :
    (ROADSTRIP.ReadFrom ops self1 openfile reverse error_output).ret
        = (ROADSTRIP.ReadFrom ops self2 openfile reverse error_output).ret
      ∧ (ROADSTRIP.ReadFrom ops self1 openfile reverse error_output).strip.patches
        = (ROADSTRIP.ReadFrom ops self2 openfile reverse error_output).strip.patches
      ∧ (ROADSTRIP.ReadFrom ops self1 openfile reverse error_output).openfile
        = (ROADSTRIP.ReadFrom ops self2 openfile reverse error_output).openfile
      ∧ (ROADSTRIP.ReadFrom ops self1 openfile reverse error_output).error_output
        = (ROADSTRIP.ReadFrom ops self2 openfile reverse error_output).error_output
      ∧ ((ROADSTRIP.ReadFrom ops self1 openfile reverse error_output).ret = .ok true →
          (ROADSTRIP.ReadFrom ops self1 openfile reverse error_output).strip
            = (ROADSTRIP.ReadFrom ops self2 openfile reverse error_output).strip) := by
  by_cases h : 0 ≤ (ops.readInt openfile).1
  · by_cases he : readPatches ops openfile reverse = []
    · rw [ReadFrom_empty ops self1 openfile reverse error_output h he,
        ReadFrom_empty ops self2 openfile reverse error_output h he]
      exact ⟨rfl, rfl, rfl, rfl, fun hc => by cases hc⟩
    · rw [ReadFrom_nonempty ops self1 openfile reverse error_output h he,
        ReadFrom_nonempty ops self2 openfile reverse error_output h he]
      exact ⟨rfl, rfl, rfl, rfl, fun _ => rfl⟩
  · rw [ReadFrom_negative ops self1 openfile reverse error_output (not_le.mp h),
      ReadFrom_negative ops self2 openfile reverse error_output (not_le.mp h)]
    exact ⟨rfl, rfl, rfl, rfl, fun hc => by cases hc⟩

end Claims2

section HitSlotLemmas

variable {G V L D B S : Type}

/-- A slot that is hit is a slot of the strip. -/
theorem lt_length_of_hitOf (ops : Collaborators G V L D B S) (self : ROADSTRIP G B)
    (origin direction : V) (seglen : L) (c : Nat) (h : V × V)
    (hc : hitOf ops self origin direction seglen c = some h) : c < self.patches.length := by
  by_contra hlt
  rw [hitOf_eq_none_of_length_le ops self origin direction seglen c (not_lt.mp hlt)] at hc
  cases hc

end HitSlotLemmas

section HitLemmas

variable {G V L D B S : Type} [LT D] [∀ a b : D, Decidable (a < b)]

/-- One step of the candidate loop keeps the selection consistent. -/
theorem collideCandidate_consistent (ops : Collaborators G V L D B S) (self : ROADSTRIP G B)
    (origin direction : V) (seglen : L) (c : Nat) (acc acc2 : Bool × CollideRefs V)
    (hacc : acc.1 = true → hitConsistent ops self origin direction seglen acc.2)
    (hstep : collideCandidate ops self origin direction seglen acc c = .ok acc2) :
    acc2.1 = true → hitConsistent ops self origin direction seglen acc2.2 := by
  have hlt : c < self.patches.length := by
    by_contra hge
    unfold collideCandidate at hstep
    rw [List.getElem?_eq_none (not_lt.mp hge)] at hstep
    cases hstep
  rw [collideCandidate_eq ops self origin direction seglen acc c hlt] at hstep
  cases hc : hitOf ops self origin direction seglen c with
  | none =>
    rw [hc] at hstep
    cases hstep
    exact hacc
  | some h =>
    rw [hc] at hstep
    simp only at hstep
    by_cases hcond : (!acc.1 || decide (ops.MagnitudeSquared (ops.sub h.1 origin)
        < ops.MagnitudeSquared (ops.sub acc.2.outtri origin))) = true
    · rw [if_pos hcond] at hstep
      cases hstep
      intro _
      refine ⟨by simp [hitRefs], by simpa [hitRefs] using hlt, by simp [hitRefs], ?_⟩
      simpa [hitRefs] using hc
    · rw [if_neg hcond] at hstep
      cases hstep
      intro _
      apply hacc
      cases ha : acc.1
      · simp [ha] at hcond
      · rfl

theorem collideCandidates_consistent (ops : Collaborators G V L D B S) (self : ROADSTRIP G B)
    (origin direction : V) (seglen : L) (cs : List Nat) (acc : Bool × CollideRefs V)
    (r : CollideRefs V)
    (hacc : acc.1 = true → hitConsistent ops self origin direction seglen acc.2)
    (hres : collideCandidates ops self origin direction seglen cs acc = .ok (true, r)) :
    hitConsistent ops self origin direction seglen r := by
  induction cs generalizing acc with
  | nil =>
    simp only [collideCandidates, Except.ok.injEq] at hres
    subst hres
    exact hacc rfl
  | cons c cs ih =>
    simp only [collideCandidates] at hres
    cases hstep : collideCandidate ops self origin direction seglen acc c with
    | error f => rw [hstep] at hres; cases hres
    | ok acc2 =>
      rw [hstep] at hres
      exact ih acc2
        (collideCandidate_consistent ops self origin direction seglen c acc acc2 hacc hstep)
        hres

/-- Whenever `Collide` returns `true`, the reference parameters name a hit. -/
theorem Collide_hit_spec (ops : Collaborators G V L D B S) (self : ROADSTRIP G B)
    (origin direction : V) (seglen : L) (refs r : CollideRefs V)
    (hres : ROADSTRIP.Collide ops self origin direction seglen refs = .ok (true, r)) :
    hitConsistent ops self origin direction seglen r := by
  rw [Collide_eq] at hres
  cases hh : hintHit ops self origin direction seglen refs.patch_id with
  | none =>
    rw [hh] at hres
    exact collideCandidates_consistent ops self origin direction seglen _ (false, refs) r
      (fun hc => by cases hc) hres
  | some h =>
    rw [hh] at hres
    simp only [Except.ok.injEq, Prod.mk.injEq, true_and] at hres
    subst hres
    unfold hintHit at hh
    by_cases h0 : 0 ≤ refs.patch_id
    · rw [if_pos h0] at hh
      have hlt := lt_length_of_hitOf ops self origin direction seglen _ h hh
      exact ⟨h0, by simp only; omega, rfl, hh⟩
    · rw [if_neg h0] at hh
      cases hh

/-- A call whose hint names a hit returns that hit. -/
theorem Collide_of_hitConsistent (ops : Collaborators G V L D B S) (self : ROADSTRIP G B)
    (origin direction : V) (seglen : L) (refs r : CollideRefs V)
    (hr : hitConsistent ops self origin direction seglen r)
    (hid : refs.patch_id = r.patch_id) :
    ROADSTRIP.Collide ops self origin direction seglen refs = .ok (true, r) := by
  obtain ⟨h0, _, hcol, hhit⟩ := hr
  rw [Collide_eq]
  have hh : hintHit ops self origin direction seglen refs.patch_id
      = some (r.outtri, r.normal) := by
    rw [hid]; unfold hintHit; rw [if_pos h0]; exact hhit
  rw [hh]
  simp only [hid, ← hcol]

end HitLemmas

section Claims3

variable {G V L D B S : Type} [LT D] [∀ a b : D, Decidable (a < b)]

/-- C14 (a hit agrees with the returned hint).  Whenever `Collide` returns `true`, by
the fast path or by the fallback, the hint on return is a slot of the strip, the
patch returned is the patch in that slot, and the hit point and normal returned
are those this patch reports for the ray. -/
theorem collide_hit_matches_hint (ops : Collaborators G V L D B S) (self : ROADSTRIP G B)
    (origin direction : V) (seglen : L) (refs r : CollideRefs V)
    (hres : ROADSTRIP.Collide ops self origin direction seglen refs = .ok (true, r)) :
    0 ≤ r.patch_id ∧ r.patch_id < (self.patches.length : Int)
      ∧ r.colpatch = some r.patch_id.toNat
      ∧ ∃ p, self.patches[r.patch_id.toNat]? = some p
          ∧ ops.Collide p.patch.geom origin direction seglen = some (r.outtri, r.normal) := by
  obtain ⟨h0, h1, h2, h3⟩ := Collide_hit_spec ops self origin direction seglen refs r hres
  refine ⟨h0, h1, h2, ?_⟩
  unfold hitOf at h3
  cases hp : self.patches[r.patch_id.toNat]? with
  | none => rw [hp] at h3; cases h3
  | some p => rw [hp] at h3; exact ⟨p, rfl, h3⟩

/-- Witness of C14: a hit found by the fallback on the strip of four patches. -/
theorem collide_hit_matches_hint_witness :
    (0 : Int) ≤ 1 ∧ (1 : Int)
        < ((ROADSTRIP.ReadFrom lineWorld emptyStrip
            [4, 5, 6, 2, 3, 2, 4, 8, 9] false []).strip.patches.length : Int)
      ∧ some 1 = some (1 : Int).toNat
      ∧ ∃ p, (ROADSTRIP.ReadFrom lineWorld emptyStrip
            [4, 5, 6, 2, 3, 2, 4, 8, 9] false []).strip.patches[(1 : Int).toNat]? = some p
          ∧ lineWorld.Collide p.patch.geom 0 1 10 = some (2, 1) :=
  collide_hit_matches_hint lineWorld
    (ROADSTRIP.ReadFrom lineWorld emptyStrip [4, 5, 6, 2, 3, 2, 4, 8, 9] false []).strip
    0 1 10 { patch_id := -1, outtri := 0, colpatch := none, normal := 0 }
    { patch_id := 1, outtri := 2, colpatch := some 1, normal := 1 } rfl

/-- C15 (queries on an empty strip miss).  On the strip the constructor leaves, with
no patch and an empty index, whose query returns no candidate, `Collide` returns
`false` for every ray and every hint, leaves the hint and the other reference
parameters unchanged, and accesses no patch. -/
theorem collide_empty_strip (ops : Collaborators G V L D B S)
    (origin direction : V) (seglen : L)
    (hq : ops.Query [] origin direction seglen = []) :
    ∀ refs : CollideRefs V,
      ROADSTRIP.Collide ops emptyStrip origin direction seglen refs = .ok (false, refs) := by
  intro refs
  rw [Collide_eq, hintHit_invalid ops emptyStrip origin direction seglen refs.patch_id
    (by simp only [emptyStrip, List.length_nil, Nat.cast_zero]; omega)]
  simp [fallbackSearch, emptyStrip, hq, collideCandidates]

/-- Witness of C15: a ray along the line, with the hint 3 left by an earlier strip. -/
theorem collide_empty_strip_witness :
    ROADSTRIP.Collide lineWorld emptyStrip 0 1 10
        { patch_id := 3, outtri := 0, colpatch := none, normal := 0 }
      = .ok (false, { patch_id := 3, outtri := 0, colpatch := none, normal := 0 }) :=
  collide_empty_strip lineWorld 0 1 10 rfl
    { patch_id := 3, outtri := 0, colpatch := none, normal := 0 }

/-- C20 (hint fixpoint).  When `Collide` returns `true` and leaves the reference
parameters `r`, a second call on the same strip with the same ray and the hint of
`r` returns `true` with the same hit point, normal and patch and leaves the hint as
it is, whatever the other reference parameters hold on entry. -/
theorem collide_hint_fixpoint (ops : Collaborators G V L D B S) (self : ROADSTRIP G B)
    (origin direction : V) (seglen : L) (refs r : CollideRefs V)
    (hres : ROADSTRIP.Collide ops self origin direction seglen refs = .ok (true, r)) :
    ∀ refs2 : CollideRefs V, refs2.patch_id = r.patch_id →
      ROADSTRIP.Collide ops self origin direction seglen refs2 = .ok (true, r) := by
  intro refs2 hid
  exact Collide_of_hitConsistent ops self origin direction seglen refs2 r
    (Collide_hit_spec ops self origin direction seglen refs r hres) hid

/-- Witness of C20: the hit of the fallback on slot 1 of the strip of four patches
is returned again when the call is repeated with the hint 1. -/
theorem collide_hint_fixpoint_witness :
    ROADSTRIP.Collide lineWorld
        (ROADSTRIP.ReadFrom lineWorld emptyStrip [4, 5, 6, 2, 3, 2, 4, 8, 9] false []).strip
        0 1 10 { patch_id := 1, outtri := 2, colpatch := some 1, normal := 1 }
      = .ok (true, { patch_id := 1, outtri := 2, colpatch := some 1, normal := 1 }) :=
  collide_hint_fixpoint lineWorld
    (ROADSTRIP.ReadFrom lineWorld emptyStrip [4, 5, 6, 2, 3, 2, 4, 8, 9] false []).strip
    0 1 10 { patch_id := -1, outtri := 0, colpatch := none, normal := 0 }
    { patch_id := 1, outtri := 2, colpatch := some 1, normal := 1 } (by rfl)
    { patch_id := 1, outtri := 2, colpatch := some 1, normal := 1 } rfl

/-- C17, as the code behaves.  A source that declares a patch from 0 to 5 and a
malformed patch: the one patch `ReadFrom` leaves is still attached to slot 1, where
the rejected patch was, while a single chaining pass over one patch of an open
strip attaches nothing.  A source of two patches from 0 to 5 and from 5 to 9, built
in reverse: the last patch, read first, is still attached to slot 1, now its own
slot, while a single pass leaves the last patch of an open strip unattached. -/
theorem readFrom_stale_successor :
    successors (ROADSTRIP.ReadFrom lineWorld emptyStrip [2, 0, 5, 3, 3] false []).strip.patches
        = [some 1]
      ∧ (ROADSTRIP.ReadFrom lineWorld emptyStrip [2, 0, 5, 3, 3] false []).strip.closed = false
      ∧ singlePassSuccessors 1 false = [none]
      ∧ successors
          (ROADSTRIP.ReadFrom lineWorld emptyStrip [2, 0, 5, 5, 9] true []).strip.patches
        = [some 1, some 1]
      ∧ (ROADSTRIP.ReadFrom lineWorld emptyStrip [2, 0, 5, 5, 9] true []).strip.closed = false
      ∧ singlePassSuccessors 2 false = [some 1, none] := by
  decide

end Claims3

section ReversalClaim

variable {G V L D B S : Type}

/-- C13 (reversal round trip).  When reversing a patch twice gives the patch back, the
reversal step of the build, applied twice to any sequence, gives the sequence back,
every patch in its place and as it was; in particular, reversing the sequence of the
reversed build gives the sequence of the build that is not reversed. -/
theorem reversePatches_twice (ops : Collaborators G V L D B S)
    (hinv : ∀ g, ops.Reverse (ops.Reverse g) = g) :
    (∀ ps : List (ROADPATCH G), reversePatches ops (reversePatches ops ps) = ps)
      ∧ (∀ openfile : S,
          reversePatches ops (readPatches ops openfile true) = readPatches ops openfile false)
    := by
  have h1 : ∀ ps : List (ROADPATCH G), reversePatches ops (reversePatches ops ps) = ps := by
    intro ps
    simp only [reversePatches, List.map_reverse, List.reverse_reverse, List.map_map]
    conv_rhs => rw [← List.map_id ps]
    apply List.map_congr_left
    intro p _
    simp [Function.comp, hinv]
  refine ⟨h1, fun openfile => ?_⟩
  simp only [readPatches, if_true, Bool.false_eq_true, if_false]
  exact h1 _

/-- Witness of C13: two attached patches on a line, turned around twice. -/
theorem reversePatches_twice_witness :
    reversePatches lineWorld (reversePatches lineWorld
        [{ patch := { geom := (0, 5), next_patch := some 1 } },
         { patch := { geom := (5, 9), next_patch := none } }])
      = [{ patch := { geom := (0, 5), next_patch := some 1 } },
         { patch := { geom := (5, 9), next_patch := none } }] :=
  (reversePatches_twice lineWorld (fun _ => rfl)).1 _

end ReversalClaim

end Vdrift
